import Mathlib

/-!
Verification of the download-orchestration core of the `yt-downloader`
repository (files `src/downloader.py` and `src/utils.py`), as a shallow
embedding in Lean 4.

Modelling conventions:
* Python strings are Lean `String`s; character-level algorithms work on
  `List Char` (`String.data`).
* A filesystem path is a pair of a directory string and a file-name string
  (every path the core constructs is `Path(download_path) / name`); the
  filesystem is an association list from paths to file sizes.
* The tracker file's parsed JSON document is a `Tracker`, an association
  list from video id to `DownloadRecord` (Python `dict` semantics:
  first binding wins on lookup, in-place replacement on update).
* The external media-fetch engine (`yt_dlp`) is an oracle
  `Nat → EngineResult`, indexed by the 1-based attempt number; it either
  reports success (creating a set of files) or raises a classified or
  unclassified error.
* Side effects that the claims quantify over (fetch invocations,
  filesystem existence probes, retry sleeps) are recorded in an event
  trace carried in the state.
* The thread pool of `download_playlist` is modelled by sequential
  execution of the per-video tasks: all tracker mutations in the source
  are serialized under `_tracker_lock`, and the claims under study are
  about counts and final state, which are interleaving-independent in
  that model.
-/

/-! ### Character and string helpers (from `utils.sanitize_filename` and
    the regexes in `utils.py` / `downloader.py`) -/

/-- The character class of `r'[<>:"/\\|?*\x00-\x1f]'` in
`utils.sanitize_filename`. -/
def isInvalidChar (c : Char) : Bool :=
  c = '<' || c = '>' || c = ':' || c = '"' || c = '/' || c = '\\' ||
  c = '|' || c = '?' || c = '*' || c.toNat ≤ 0x1f

/-- The character class stripped by `.strip(' .')`. -/
def isStripChar (c : Char) : Bool :=
  c = ' ' || c = '.'

/-- Python `s.strip(' .')`: drop the characters of the class from both
ends. -/
def stripChars (l : List Char) : List Char :=
  ((l.dropWhile isStripChar).reverse.dropWhile isStripChar).reverse

/-- `re.sub(invalid_chars, '_', filename)`. -/
def replaceInvalid (l : List Char) : List Char :=
  l.map (fun c => if isInvalidChar c then '_' else c)

/-- The length cap `if len(sanitized) > max_length: sanitized = sanitized[:max_length]`. -/
def truncateTo (maxLength : Nat) (l : List Char) : List Char :=
  if l.length > maxLength then l.take maxLength else l

/-- `utils.sanitize_filename`, character-list level: replace invalid
characters by an underscore, strip leading/trailing spaces and dots,
truncate to `maxLength`, and fall back to `"video"` when empty. -/
def sanitizeFilenameL (l : List Char) (maxLength : Nat) : List Char :=
  if (truncateTo maxLength (stripChars (replaceInvalid l))).isEmpty then
    ['v', 'i', 'd', 'e', 'o']
  else truncateTo maxLength (stripChars (replaceInvalid l))

/-- `utils.sanitize_filename` on strings (default `max_length = 200`). -/
def sanitize_filename (s : String) (maxLength : Nat := 200) : String :=
  ⟨sanitizeFilenameL s.data maxLength⟩

/-- Python `f"{index:04d}"` for a natural number. -/
def pad4 (n : Nat) : String :=
  let s := toString n
  if s.length < 4 then ⟨List.replicate (4 - s.length) '0'⟩ ++ s else s

/-- Index of the last occurrence of `c`, if any. -/
def lastIdxOf (c : Char) : List Char → Option Nat
  | [] => none
  | a :: as =>
    match lastIdxOf c as with
    | some i => some (i + 1)
    | none => if a = c then some 0 else none

/-- `pathlib` suffix split of a file name: the suffix starts at the last
dot provided that dot is neither the first nor the last character;
otherwise the name has no suffix. Returns `(stem, suffix)`. -/
def suffixSplit (name : List Char) : List Char × List Char :=
  match lastIdxOf '.' name with
  | some i =>
    if 0 < i ∧ i + 1 < name.length then (name.take i, name.drop i)
    else (name, [])
  | none => (name, [])

/-- `pathlib` `PurePath.stem` of a file name. -/
def stemName (name : String) : String :=
  ⟨(suffixSplit name.data).1⟩

/-- `pathlib` `PurePath.suffix` of a file name. -/
def suffixOfName (name : String) : String :=
  ⟨(suffixSplit name.data).2⟩

/-- `pathlib` `with_suffix`: replace (or append) the suffix of a file
name. -/
def withSuffix (name : String) (suf : String) : String :=
  ⟨(suffixSplit name.data).1 ++ suf.data⟩

/-- `pre` is a prefix of `l` (Python `str.startswith` on char lists). -/
def startsWithL : List Char → List Char → Bool
  | [], _ => true
  | _ :: _, [] => false
  | a :: as, b :: bs => a = b && startsWithL as bs

/-- `sub` occurs as a contiguous substring of the second argument
(Python `sub in s`). -/
def containsSubL (sub : List Char) : List Char → Bool
  | [] => startsWithL sub []
  | c :: cs => startsWithL sub (c :: cs) || containsSubL sub cs

/-- Python `sub in s` on strings. -/
def containsSub (s sub : String) : Bool :=
  containsSubL sub.data s.data

/-- Python `str.lower()` (the messages matched by the source are ASCII,
where `Char.toLower` agrees with Python). -/
def lowerStr (s : String) : String :=
  ⟨s.data.map Char.toLower⟩

/-- `l` ends with `suf`. -/
def endsWithL (l suf : List Char) : Bool :=
  startsWithL suf.reverse l.reverse

/-- The character class of the video-id regex `[a-zA-Z0-9_-]`. -/
def idChar (c : Char) : Bool :=
  (97 ≤ c.toNat && c.toNat ≤ 122) || (65 ≤ c.toNat && c.toNat ≤ 90) ||
  (48 ≤ c.toNat && c.toNat ≤ 57) || c = '_' || c = '-'

/-- `re.search(r'([a-zA-Z0-9_-]{11})$', stem)`: recover a trailing
11-character video-id token.  Python's `$` also matches just before a
single trailing newline, and a trailing newline is not an id character,
so the match (when it exists) is the last 11 characters of the stem with
one trailing newline removed. -/
def extractIdFromStem (stem : List Char) : Option String :=
  let s := if stem.getLast? = some '\n' then stem.dropLast else stem
  if 11 ≤ s.length ∧ (s.drop (s.length - 11)).all idChar then
    some ⟨s.drop (s.length - 11)⟩
  else none

/-! ### Paths and the filesystem -/

/-- A filesystem path: every path built by the core is
`Path(download_path) / name`, so we keep the two components. -/
structure Pth where
  dir : String
  name : String
deriving Repr, DecidableEq

/-- `str(path)` of a `Pth`. -/
def pthStr (p : Pth) : String :=
  p.dir ++ "/" ++ p.name

/-- The filesystem: an association list from paths to file sizes
(`stat().st_size`). -/
abbrev FS := List (Pth × Nat)

def fsLookup (p : Pth) : FS → Option Nat
  | [] => none
  | (q, sz) :: rest => if q = p then some sz else fsLookup p rest

/-- `path.exists()`. -/
def fsHas (p : Pth) (fs : FS) : Bool :=
  (fsLookup p fs).isSome

/-- Remove a path (used for the source half of a rename). -/
def fsErase (p : Pth) : FS → FS
  | [] => []
  | (q, sz) :: rest => if q = p then fsErase p rest else (q, sz) :: fsErase p rest

/-- Create or overwrite a file. -/
def fsSet (p : Pth) (sz : Nat) (fs : FS) : FS :=
  (p, sz) :: fsErase p fs

/-- Create or overwrite a batch of files (the files materialized by one
engine invocation). -/
def fsSetMany (fs : FS) : List (Pth × Nat) → FS
  | [] => fs
  | (p, sz) :: rest => fsSetMany (fsSet p sz fs) rest

/-! ### The tracker store (`utils.py`) -/

/-- One tracker record, as written by `utils.mark_video_downloaded`. -/
structure DownloadRecord where
  video_id : String
  title : String
  filepath : String
  download_date : String
  file_size : Option Nat
  status : String
deriving Repr, DecidableEq

/-- The parsed tracker document: a JSON object is an association list
with unique keys; first binding wins on lookup. -/
abbrev Tracker := List (String × DownloadRecord)

def lookupT (k : String) : Tracker → Option DownloadRecord
  | [] => none
  | (k', v) :: rest => if k' = k then some v else lookupT k rest

/-- Python `d[k] = v` on a dict: replace in place, else append. -/
def setT (k : String) (v : DownloadRecord) : Tracker → Tracker
  | [] => [(k, v)]
  | (k', v') :: rest => if k' = k then (k, v) :: rest else (k', v') :: setT k v rest

/-- `utils.mark_video_downloaded`: under `_tracker_lock`, load the
tracker, set the record for `video_id`, and save.  Modelled as the pure
update of the parsed document; `now` models `datetime.now().isoformat()`.
The lock makes the whole read-modify-write-replace cycle atomic, which is
why concurrent executions are modelled as sequential compositions of this
function. -/
def mark_video_downloaded (video_id video_title filepath : String)
    (now : String) (file_size : Option Nat) (t : Tracker) : Tracker :=
  setT video_id
    { video_id := video_id, title := video_title, filepath := filepath,
      download_date := now, file_size := file_size, status := "downloaded" } t

/-- `utils.is_video_downloaded`: `video_id in tracker and
tracker[video_id].get('status') == 'downloaded'`. -/
def is_video_downloaded (video_id : String) (t : Tracker) : Bool :=
  match lookupT video_id t with
  | some r => r.status = "downloaded"
  | none => false

/-- The keys of a tracker document are unique (a parsed JSON object). -/
def trackerWF (t : Tracker) : Prop :=
  (t.map Prod.fst).Nodup

/-! ### Atomic save (`utils.save_download_tracker`)

For claim C3 the tracker *file* itself matters, so here the filesystem is
modelled at the document level: a store mapping paths to parsed tracker
documents.  `save` performs two steps: (1) serialize the mapping into the
temporary sibling `tracker_path.with_suffix('.tmp')`, (2) `os.replace`
the temporary file over the destination (atomic rename). -/

/-- A document store: path to parsed tracker document. -/
abbrev FStore := List (Pth × Tracker)

def storeLookup (p : Pth) : FStore → Option Tracker
  | [] => none
  | (q, d) :: rest => if q = p then some d else storeLookup p rest

def storeErase (p : Pth) : FStore → FStore
  | [] => []
  | (q, d) :: rest => if q = p then storeErase p rest else (q, d) :: storeErase p rest

def storeSet (p : Pth) (d : Tracker) (store : FStore) : FStore :=
  (p, d) :: storeErase p store

/-- `tracker_path.with_suffix('.tmp')`. -/
def tmpPath (trackerFile : Pth) : Pth :=
  ⟨trackerFile.dir, withSuffix trackerFile.name ".tmp"⟩

/-- `utils.save_download_tracker`.  `writeFails = some err` injects a
failure of the `json.dump` write (the temporary file is left holding the
arbitrary partial content `partialDoc`); the handler then removes the
temporary artifact and re-raises `err`.  On the success path the
temporary file is written in full and `os.replace` atomically renames it
over the destination. -/
def save_download_tracker (tracker : Tracker) (trackerFile : Pth)
    (writeFails : Option String) (partialDoc : Tracker)
    (store : FStore) : Except String Unit × FStore :=
  let tmp := tmpPath trackerFile
  match writeFails with
  | some err =>
    let s1 := storeSet tmp partialDoc store
    (Except.error err, storeErase tmp s1)
  | none =>
    let s1 := storeSet tmp tracker store
    let s2 := storeSet trackerFile tracker (storeErase tmp s1)
    (Except.ok (), s2)

/-- `utils.save_download_tracker` interrupted by a crash after
`stepsDone` atomic sub-steps of the success path: `0` = before anything
was written, `1` = the temporary file partially written (arbitrary
content `partialDoc`), `2` = the temporary file fully written but the
rename not yet performed, `≥ 3` = the rename completed. -/
def save_tracker_interrupted (tracker : Tracker) (trackerFile : Pth)
    (partialDoc : Tracker) (stepsDone : Nat) (store : FStore) : FStore :=
  let tmp := tmpPath trackerFile
  if stepsDone = 0 then store
  else if stepsDone = 1 then storeSet tmp partialDoc store
  else if stepsDone = 2 then storeSet tmp tracker store
  else storeSet trackerFile tracker (storeErase tmp (storeSet tmp tracker store))

/-! ### `utils.get_downloaded_videos` -/

/-- The identifiers collected from the tracker document: the ids of the
records whose status is `"downloaded"` (the `for video_id, info in
tracker.items()` loop). -/
def trackerDownloadedIds (t : Tracker) : List String :=
  (t.filter (fun e => e.2.status = "downloaded")).map Prod.fst

/-- The legacy recovery scan: `download_dir.glob("*.mp4")`, then
`re.search(r'([a-zA-Z0-9_-]{11})$', file.stem)` on each name.  An entry
matches the glob when it lives directly in the directory and its name
ends with `".mp4"`. -/
def scanMp4Ids (download_path : String) (fs : FS) : List String :=
  fs.filterMap (fun e =>
    if e.1.dir = download_path ∧ endsWithL e.1.name.data ['.', 'm', 'p', '4'] then
      extractIdFromStem (stemName e.1.name).data
    else none)

/-- `utils.get_downloaded_videos`: the tracker ids plus (when a download
directory is supplied) the ids recovered from local `*.mp4` file names
that are not already known to the tracker. -/
def get_downloaded_videos (t : Tracker) (download_path : Option String)
    (fs : FS) : List String :=
  trackerDownloadedIds t ++
    match download_path with
    | some dp =>
      (scanMp4Ids dp fs).filter (fun i => decide (i ∉ trackerDownloadedIds t))
    | none => []

/-! ### The single-video download task (`downloader.download_video`) -/

/-- A video descriptor dictionary; `none` models an absent key
(`video.get(k, default)`). -/
structure Video where
  id : Option String
  title : Option String
  url : Option String
  index : Option Nat
deriving Repr, DecidableEq

/-- The outcome dictionary returned by `download_video` (`skipped` is
absent, i.e. falsy, on the failure paths). -/
structure Outcome where
  success : Bool
  filepath : Option String
  skipped : Bool
  error : Option String
  video_id : String
  video_title : String
deriving Repr, DecidableEq

/-- One invocation of the external media-fetch engine: it either returns
normally having materialized `created` files, or raises
`yt_dlp.utils.DownloadError` with message `msg`, or raises some other
exception with message `msg`. -/
inductive EngineResult where
  | ok (created : List (Pth × Nat))
  | downloadError (msg : String)
  | otherError (msg : String)
deriving Repr, DecidableEq

/-- The observable side effects the claims quantify over. -/
inductive Event where
  | fetchInvoked (attempt : Nat)
  | fsProbe (p : Pth)
  | sleepEv (secs : Nat)
deriving Repr, DecidableEq

/-- The mutable state threaded through the task: the filesystem, the
tracker file (`none` when no `tracker_file` argument was supplied), and
the event trace. -/
structure DLState where
  fs : FS
  tracker : Option Tracker
  events : List Event
deriving Repr

/-- `mark_video_downloaded` guarded by `if tracker_file:`. -/
def trackerMark (st : DLState) (vid vtitle fp now : String)
    (sz : Option Nat) : DLState :=
  { st with tracker := st.tracker.map (mark_video_downloaded vid vtitle fp now sz) }

/-- The filename stem `f"{index:04d} - {title}"` (or just the sanitized
title when no index is available). -/
def filenameBase (index : Option Nat) (vtitle : String) : String :=
  match index with
  | some i => pad4 i ++ " - " ++ sanitize_filename vtitle
  | none => sanitize_filename vtitle

/-- The single path probed by the first local-existence check:
`.mp4` for video mode, the requested audio format when it is a concrete
one, nothing otherwise. -/
def expectedFilepath (download_path base : String)
    (audio_only : Bool) (audio_format : String) : Option Pth :=
  if audio_only then
    if audio_format ≠ "" ∧ audio_format ≠ "best" then
      some ⟨download_path, withSuffix base ("." ++ audio_format)⟩
    else none
  else some ⟨download_path, withSuffix base ".mp4"⟩

/-- The common audio container suffixes probed before downloading
(`common_audio_exts` in the source, in source order). -/
def audioProbePaths (download_path base : String) : List Pth :=
  [".mp3", ".m4a", ".webm", ".flac", ".wav", ".opus"].map
    (fun e => ⟨download_path, withSuffix base e⟩)

/-- The candidate output files checked after an engine invocation
(`possible_files` in the source, in source order). -/
def possibleFiles (download_path base : String)
    (audio_only : Bool) (audio_format : String) : List Pth :=
  if audio_only then
    (if audio_format ≠ "" ∧ audio_format ≠ "best" then
      [(⟨download_path, withSuffix base ("." ++ audio_format)⟩ : Pth)]
    else []) ++
    [".mp3", ".m4a", ".webm", ".opus", ".flac", ".wav"].map
      (fun e => (⟨download_path, withSuffix base e⟩ : Pth))
  else
    [".mp4", ".webm", ".mkv"].map
      (fun e => (⟨download_path, withSuffix base e⟩ : Pth))

/-- Walk a candidate list, probing each path until one exists (the
`for possible_file in possible_files: ... break` loop); returns the
probe events and the first hit. -/
def probeFirst (fs : FS) : List Pth → List Event × Option Pth
  | [] => ([], none)
  | p :: ps =>
    if fsHas p fs then ([Event.fsProbe p], some p)
    else
      let r := probeFirst fs ps
      (Event.fsProbe p :: r.1, r.2)

/-- The substring classification of a `DownloadError` message in
`download_video`: private/unavailable and authentication errors
short-circuit the retry loop. -/
def classifyMsg (m : String) : Option String :=
  if containsSub m "Private video" || containsSub m "Video unavailable" then
    some "Video unavailable or private"
  else if containsSub m "Sign in" || containsSub (lowerStr m) "authentication" then
    some "Authentication required"
  else none

/-- The failure outcome dictionary. -/
def mkFailure (err vid vtitle : String) : Outcome :=
  { success := false, filepath := none, skipped := false,
    error := some err, video_id := vid, video_title := vtitle }

/-- The retry loop `for attempt in range(1, retry_attempts + 1)` of
`download_video`.  `fuel` is the number of remaining iterations
(initially `retry_attempts`); falling out of the loop returns the
failure outcome carrying the last error. -/
def dlLoop (engine : Nat → EngineResult) (download_path base : String)
    (audio_only : Bool) (audio_format : String) (vid vtitle now : String)
    (retry_attempts retry_delay : Nat) :
    Nat → Nat → Option String → DLState → Outcome × DLState
  | 0, _, lastError, st =>
    (mkFailure (lastError.getD "Unknown error") vid vtitle, st)
  | fuel + 1, attempt, _, st =>
    let st1 := { st with events := st.events ++ [Event.fetchInvoked attempt] }
    match engine attempt with
    | EngineResult.ok created =>
      let fs1 := fsSetMany st1.fs created
      let pr := probeFirst fs1 (possibleFiles download_path base audio_only audio_format)
      let st2 := { st1 with fs := fs1, events := st1.events ++ pr.1 }
      match pr.2 with
      | some f =>
        -- rename the container to .mp4 when needed (video mode only)
        let sz := (fsLookup f st2.fs).getD 0
        let fr : Pth × FS :=
          if audio_only = false ∧ suffixOfName f.name ≠ ".mp4" then
            let f' : Pth := ⟨f.dir, withSuffix f.name ".mp4"⟩
            (f', fsSet f' sz (fsErase f st2.fs))
          else (f, st2.fs)
        let st3 := trackerMark { st2 with fs := fr.2 } vid vtitle
          (pthStr fr.1) now (some sz)
        ({ success := true, filepath := some (pthStr fr.1), skipped := false,
           error := none, video_id := vid, video_title := vtitle }, st3)
      | none =>
        -- FileNotFoundError("Downloaded file not found after download"),
        -- caught by the generic handler and retried
        let msg := "Downloaded file not found after download"
        if attempt < retry_attempts then
          let st3 := { st2 with events := st2.events ++ [Event.sleepEv retry_delay] }
          dlLoop engine download_path base audio_only audio_format vid vtitle now
            retry_attempts retry_delay fuel (attempt + 1) (some msg) st3
        else
          dlLoop engine download_path base audio_only audio_format vid vtitle now
            retry_attempts retry_delay fuel (attempt + 1) (some msg) st2
    | EngineResult.downloadError msg =>
      match classifyMsg msg with
      | some classified => (mkFailure classified vid vtitle, st1)
      | none =>
        if attempt < retry_attempts then
          let st3 := { st1 with events := st1.events ++ [Event.sleepEv retry_delay] }
          dlLoop engine download_path base audio_only audio_format vid vtitle now
            retry_attempts retry_delay fuel (attempt + 1) (some msg) st3
        else
          dlLoop engine download_path base audio_only audio_format vid vtitle now
            retry_attempts retry_delay fuel (attempt + 1) (some msg) st1
    | EngineResult.otherError msg =>
      if attempt < retry_attempts then
        let st3 := { st1 with events := st1.events ++ [Event.sleepEv retry_delay] }
        dlLoop engine download_path base audio_only audio_format vid vtitle now
          retry_attempts retry_delay fuel (attempt + 1) (some msg) st3
      else
        dlLoop engine download_path base audio_only audio_format vid vtitle now
          retry_attempts retry_delay fuel (attempt + 1) (some msg) st1

/-- The part of `download_video` following the first local-existence
check: the common-audio-extension probe loop (audio mode only) and then
the engine retry loop. -/
def afterExpectedProbe (vid vtitle download_path : String)
    (retry_attempts retry_delay : Nat) (index : Option Nat)
    (audio_only : Bool) (audio_format : String)
    (engine : Nat → EngineResult) (now : String)
    (st : DLState) : Outcome × DLState :=
  let base := filenameBase index vtitle
  if audio_only then
    let pr := probeFirst st.fs (audioProbePaths download_path base)
    let st1 := { st with events := st.events ++ pr.1 }
    match pr.2 with
    | some cp =>
      let sz := fsLookup cp st1.fs
      let st2 := trackerMark st1 vid vtitle (pthStr cp) now sz
      ({ success := true, filepath := some (pthStr cp), skipped := true,
         error := none, video_id := vid, video_title := vtitle }, st2)
    | none =>
      dlLoop engine download_path base audio_only audio_format vid vtitle now
        retry_attempts retry_delay retry_attempts 1 none st1
  else
    dlLoop engine download_path base audio_only audio_format vid vtitle now
      retry_attempts retry_delay retry_attempts 1 none st

/-- The body of `download_video` after the tracker check: the local
existence probes followed by the retry loop.  Engine-configuration
plumbing (format selector, resolution bounds, cookies) only shapes the
behaviour of the engine oracle and is abstracted into it. -/
def downloadVideoBody (vid vtitle download_path : String)
    (retry_attempts retry_delay : Nat) (index : Option Nat)
    (audio_only : Bool) (audio_format : String)
    (engine : Nat → EngineResult) (now : String)
    (st : DLState) : Outcome × DLState :=
  let base := filenameBase index vtitle
  match expectedFilepath download_path base audio_only audio_format with
  | some p =>
    let st1 := { st with events := st.events ++ [Event.fsProbe p] }
    if fsHas p st1.fs then
      let sz := fsLookup p st1.fs
      let st2 := trackerMark st1 vid vtitle (pthStr p) now sz
      ({ success := true, filepath := some (pthStr p), skipped := true,
         error := none, video_id := vid, video_title := vtitle }, st2)
    else
      afterExpectedProbe vid vtitle download_path retry_attempts retry_delay
        index audio_only audio_format engine now st1
  | none =>
    afterExpectedProbe vid vtitle download_path retry_attempts retry_delay
      index audio_only audio_format engine now st

/-- `downloader.download_video`: tracker check, local existence probes,
then the engine retry loop. -/
def download_video (video : Video) (download_path : String)
    (retry_attempts retry_delay : Nat) (index : Option Nat)
    (audio_only : Bool) (audio_format : String)
    (engine : Nat → EngineResult) (now : String)
    (st : DLState) : Outcome × DLState :=
  let vid := (video.id).getD ""
  let vtitle := (video.title).getD "Unknown Title"
  let trackerHit :=
    match st.tracker with
    | some t => is_video_downloaded vid t
    | none => false
  if trackerHit then
    ({ success := true, filepath := none, skipped := true, error := none,
       video_id := vid, video_title := vtitle }, st)
  else
    downloadVideoBody vid vtitle download_path retry_attempts retry_delay
      index audio_only audio_format engine now st

/-! ### The download scheduler (`downloader.download_playlist`) -/

/-- The batch summary dictionary returned by `download_playlist`. -/
structure Summary where
  total : Nat
  successful : Nat
  failed : Nat
  skipped : Nat
  results : List Outcome
deriving Repr

/-- The audio-suffix list of the no-tracker resume fallback. -/
def fallbackAudioSuffixes : List String :=
  [".mp3", ".m4a", ".webm", ".opus", ".flac", ".wav"]

/-- The no-tracker resume fallback: scan `*.mp4` names, and in audio
mode additionally every file whose `pathlib` suffix is a common audio
suffix. -/
def fallbackIds (download_path : String) (audio_only : Bool) (fs : FS) : List String :=
  scanMp4Ids download_path fs ++
    (if audio_only then
      fs.filterMap (fun e =>
        if e.1.dir = download_path ∧ suffixOfName e.1.name ∈ fallbackAudioSuffixes then
          extractIdFromStem (stemName e.1.name).data
        else none)
    else [])

/-- The set of identifiers the resume pre-filter treats as already
downloaded (`downloaded_ids` in the source). -/
def downloadedIdsFor (download_path : String) (audio_only : Bool)
    (st : DLState) : List String :=
  match st.tracker with
  | some t => get_downloaded_videos t (some download_path) st.fs
  | none => fallbackIds download_path audio_only st.fs

/-- The post-filter sequence `videos_to_download` (equal to `videos`
when resume is disabled). -/
def videosToDownload (videos : List Video) (resume : Bool)
    (download_path : String) (audio_only : Bool) (st : DLState) : List Video :=
  if resume then
    videos.filter (fun v =>
      decide ((v.id.getD "") ∉ downloadedIdsFor download_path audio_only st))
  else videos

/-- The worker pool of `download_playlist`, modelled as sequential
execution of the submitted tasks (see the module comment): run
`download_video` on each descriptor, collect the outcomes, and keep the
three counters exactly as the `as_completed` loop does.  The engine
oracle is indexed by the position of the descriptor in the dispatched
sequence. -/
def runPool (download_path : String) (retry_attempts retry_delay : Nat)
    (audio_only : Bool) (audio_format : String)
    (engine : Nat → Nat → EngineResult) (now : String) :
    Nat → List Video → DLState → List Outcome → Nat → Nat → Nat →
    List Outcome × Nat × Nat × Nat × DLState
  | _, [], st, results, successful, failed, skipped =>
    (results, successful, failed, skipped, st)
  | k, v :: rest, st, results, successful, failed, skipped =>
    let r := download_video v download_path retry_attempts retry_delay
      v.index audio_only audio_format (engine k) now st
    let results1 := results ++ [r.1]
    if r.1.skipped then
      runPool download_path retry_attempts retry_delay audio_only audio_format
        engine now (k + 1) rest r.2 results1 successful failed (skipped + 1)
    else if r.1.success then
      runPool download_path retry_attempts retry_delay audio_only audio_format
        engine now (k + 1) rest r.2 results1 (successful + 1) failed skipped
    else
      runPool download_path retry_attempts retry_delay audio_only audio_format
        engine now (k + 1) rest r.2 results1 successful (failed + 1) skipped

/-- `downloader.download_playlist`: resume pre-filter, early return when
nothing is left to do, otherwise dispatch every remaining descriptor and
aggregate the summary.  Scheduler-boundary exception handling is not
modelled: the modelled tasks are total functions and never raise. -/
def download_playlist (videos : List Video) (download_path : String)
    (retry_attempts retry_delay : Nat) (resume : Bool)
    (audio_only : Bool) (audio_format : String)
    (engine : Nat → Nat → EngineResult) (now : String)
    (st : DLState) : Summary × DLState :=
  let original := videos.length
  let vtd := videosToDownload videos resume download_path audio_only st
  let skippedCount := if resume then videos.length - vtd.length else 0
  if vtd.isEmpty then
    ({ total := original, successful := 0, failed := 0,
       skipped := skippedCount, results := [] }, st)
  else
    let r := runPool download_path retry_attempts retry_delay audio_only
      audio_format engine now 0 vtd st [] 0 0 0
    ({ total := original, successful := r.2.1, failed := r.2.2.1,
       skipped := r.2.2.2.1 + skippedCount, results := r.1 }, r.2.2.2.2)

/-! ## Lemmas -/

theorem mem_of_mem_stripChars {c : Char} {l : List Char}
    (h : c ∈ stripChars l) : c ∈ l := by
  unfold stripChars at h
  rw [List.mem_reverse] at h
  have h2 := (List.dropWhile_sublist _).subset h
  rw [List.mem_reverse] at h2
  exact (List.dropWhile_sublist _).subset h2

theorem stripChars_length_le (l : List Char) :
    (stripChars l).length ≤ l.length := by
  unfold stripChars
  calc ((l.dropWhile isStripChar).reverse.dropWhile isStripChar).reverse.length
      = ((l.dropWhile isStripChar).reverse.dropWhile isStripChar).length := by
        rw [List.length_reverse]
    _ ≤ (l.dropWhile isStripChar).reverse.length :=
        (List.dropWhile_sublist _).length_le
    _ = (l.dropWhile isStripChar).length := by rw [List.length_reverse]
    _ ≤ l.length := (List.dropWhile_sublist _).length_le

theorem mem_of_mem_truncateTo {c : Char} {l : List Char} {n : Nat}
    (h : c ∈ truncateTo n l) : c ∈ l := by
  unfold truncateTo at h
  split at h
  · exact (List.take_subset _ _) h
  · exact h

theorem truncateTo_length_le (n : Nat) (l : List Char) :
    (truncateTo n l).length ≤ max n l.length := by
  unfold truncateTo
  split
  · simp [Nat.le_max_left]
  · simp [Nat.le_max_right]

theorem sanitizeFilenameL_no_invalid (l : List Char) (maxLength : Nat) :
    ∀ c ∈ sanitizeFilenameL l maxLength, isInvalidChar c = false := by
  intro c hc
  unfold sanitizeFilenameL at hc
  split at hc
  · simp only [List.mem_cons, List.not_mem_nil, or_false] at hc
    rcases hc with rfl | rfl | rfl | rfl | rfl <;> decide
  · have hc2 := mem_of_mem_stripChars (mem_of_mem_truncateTo hc)
    rcases List.mem_map.mp hc2 with ⟨a, _, ha⟩
    by_cases hia : isInvalidChar a
    · simp only [hia, if_pos] at ha
      rw [← ha]; decide
    · simp only [hia, if_neg, Bool.false_eq_true, not_false_iff] at ha
      rw [← ha]
      simpa using hia

theorem sanitizeFilenameL_length (l : List Char) (maxLength : Nat)
    (h : 5 ≤ maxLength) :
    (sanitizeFilenameL l maxLength).length ≤ maxLength := by
  unfold sanitizeFilenameL
  split
  · simp only [List.length_cons, List.length_nil]
    omega
  · unfold truncateTo
    split
    · simp only [List.length_take]
      exact Nat.min_le_left maxLength _
    · omega

theorem sanitizeFilenameL_ne_nil (l : List Char) (maxLength : Nat) :
    sanitizeFilenameL l maxLength ≠ [] := by
  unfold sanitizeFilenameL
  split
  · simp
  · next he => simpa [List.isEmpty_iff] using he

/-- C8: `sanitize_filename` removes every illegal character (the
reserved set and control characters), trims leading/trailing spaces and
dots before truncation, never returns more than `maxLength` characters
(for any length cap at least as long as the fallback placeholder, which
includes the default of 200), and never returns the empty string. -/
theorem C8_sanitize_filename_spec (s : String) (maxLength : Nat)
    (h : 5 ≤ maxLength) :
    (∀ c ∈ (sanitize_filename s maxLength).data, isInvalidChar c = false) ∧
    (sanitize_filename s maxLength).length ≤ maxLength ∧
    sanitize_filename s maxLength ≠ "" := by
  refine ⟨sanitizeFilenameL_no_invalid s.data maxLength,
    sanitizeFilenameL_length s.data maxLength h, ?_⟩
  intro hcontra
  have : (sanitize_filename s maxLength).data = "".data := by rw [hcontra]
  exact sanitizeFilenameL_ne_nil s.data maxLength this

/-- Witness for C8 at a concrete input containing the whole reserved
character set. -/
theorem C8_witness :
    (∀ c ∈ (sanitize_filename "a<>:\"/\\|?*b" 200).data, isInvalidChar c = false) ∧
    (sanitize_filename "a<>:\"/\\|?*b" 200).length ≤ 200 ∧
    sanitize_filename "a<>:\"/\\|?*b" 200 ≠ "" :=
  C8_sanitize_filename_spec "a<>:\"/\\|?*b" 200 (by decide)

/-! ### Tracker update lemmas -/

theorem lookupT_setT_self (k : String) (v : DownloadRecord) (t : Tracker) :
    lookupT k (setT k v t) = some v := by
  induction t with
  | nil => simp [setT, lookupT]
  | cons e rest ih =>
    obtain ⟨k', v'⟩ := e
    unfold setT
    by_cases hk : k' = k
    · simp [hk, lookupT]
    · simp [hk, lookupT, ih]

theorem lookupT_setT_other {j k : String} (v : DownloadRecord) (t : Tracker)
    (h : j ≠ k) : lookupT j (setT k v t) = lookupT j t := by
  induction t with
  | nil => simp [setT, lookupT, Ne.symm h]
  | cons e rest ih =>
    obtain ⟨k', v'⟩ := e
    unfold setT
    by_cases hk : k' = k
    · subst hk
      simp [lookupT, Ne.symm h]
    · simp [hk, lookupT, ih]


/-- C10: `mark_video_downloaded` is a frame-preserving point update: the
record of every identifier other than the marked one is untouched, and
the marked identifier maps to a record with status `"downloaded"`
carrying the supplied title, filepath and size. -/
theorem C10_mark_video_downloaded_frame (t : Tracker)
    (video_id video_title filepath now : String) (file_size : Option Nat) :
    (∀ j, j ≠ video_id →
      lookupT j (mark_video_downloaded video_id video_title filepath now file_size t)
        = lookupT j t) ∧
    lookupT video_id (mark_video_downloaded video_id video_title filepath now file_size t)
      = some { video_id := video_id, title := video_title, filepath := filepath,
               download_date := now, file_size := file_size, status := "downloaded" } := by
  constructor
  · intro j hj
    exact lookupT_setT_other _ t hj
  · exact lookupT_setT_self _ _ t

/-- Witness for C10 at a concrete tracker and identifier pair. -/
theorem C10_witness :
    lookupT "BBBBBBBBBBB"
      (mark_video_downloaded "AAAAAAAAAAA" "Talk" "dl/0001 - Talk.mp4" "2024-01-01T00:00:00"
        (some 42)
        [("BBBBBBBBBBB",
          { video_id := "BBBBBBBBBBB", title := "Other", filepath := "dl/x.mp4",
            download_date := "2023-01-01T00:00:00", file_size := none,
            status := "downloaded" })])
      = lookupT "BBBBBBBBBBB"
        [("BBBBBBBBBBB",
          { video_id := "BBBBBBBBBBB", title := "Other", filepath := "dl/x.mp4",
            download_date := "2023-01-01T00:00:00", file_size := none,
            status := "downloaded" })] :=
  (C10_mark_video_downloaded_frame _ "AAAAAAAAAAA" "Talk" "dl/0001 - Talk.mp4"
    "2024-01-01T00:00:00" (some 42)).1 "BBBBBBBBBBB" (by decide)

/-! ### C4: lost-update freedom for concurrent `mark_video_downloaded` -/

/-- One worker's `mark_downloaded` call. -/
structure MarkCall where
  video_id : String
  title : String
  filepath : String
  file_size : Option Nat
deriving Repr, DecidableEq

/-- The record a call writes. -/
def recordOf (c : MarkCall) (now : String) : DownloadRecord :=
  { video_id := c.video_id, title := c.title, filepath := c.filepath,
    download_date := now, file_size := c.file_size, status := "downloaded" }

/-- A serialized execution of a batch of `mark_video_downloaded` calls
against the same tracker document.  Because the source holds
`_tracker_lock` for the whole read-modify-write-replace cycle, every
concurrent execution of N workers is equivalent to some sequential order
of the N calls, i.e. to `applyMarks` on some permutation of the call
list. -/
def applyMarks (now : String) (calls : List MarkCall) (t : Tracker) : Tracker :=
  calls.foldl
    (fun acc c => mark_video_downloaded c.video_id c.title c.filepath now c.file_size acc) t

theorem applyMarks_cons (now : String) (c : MarkCall) (rest : List MarkCall)
    (t : Tracker) :
    applyMarks now (c :: rest) t
      = applyMarks now rest
          (mark_video_downloaded c.video_id c.title c.filepath now c.file_size t) := rfl

theorem applyMarks_lookup_of_not_mem (now : String) (calls : List MarkCall)
    (t : Tracker) (j : String) (h : j ∉ calls.map MarkCall.video_id) :
    lookupT j (applyMarks now calls t) = lookupT j t := by
  induction calls generalizing t with
  | nil => rfl
  | cons c rest ih =>
    simp only [List.map_cons, List.mem_cons, not_or] at h
    rw [applyMarks_cons, ih _ h.2]
    exact lookupT_setT_other _ t h.1

/-- C4: for every batch of `mark_downloaded` calls with pairwise
distinct identifiers, and every serialization order of the workers (the
per-call lock reduces any concurrent execution to such an order), the
final tracker document contains the record of every call: no update is
lost. -/
theorem C4_mark_video_downloaded_no_lost_update (now : String)
    (calls : List MarkCall) (t : Tracker)
    (hnodup : (calls.map MarkCall.video_id).Nodup) :
    ∀ c ∈ calls, lookupT c.video_id (applyMarks now calls t) = some (recordOf c now) := by
  induction calls generalizing t with
  | nil => intro c hc; cases hc
  | cons d rest ih =>
    intro c hc
    simp only [List.map_cons, List.nodup_cons] at hnodup
    rcases List.mem_cons.mp hc with rfl | hmem
    · rw [applyMarks_cons, applyMarks_lookup_of_not_mem now rest _ _ hnodup.1]
      exact lookupT_setT_self _ _ t
    · rw [applyMarks_cons]
      exact ih _ hnodup.2 c hmem

/-- Witness for C4: two workers, distinct identifiers, one serialization
order; both records survive. -/
theorem C4_witness :
    lookupT "AAAAAAAAAAA"
      (applyMarks "2024-01-01T00:00:00"
        [{ video_id := "AAAAAAAAAAA", title := "Talk", filepath := "dl/a.mp4",
           file_size := some 1 },
         { video_id := "BBBBBBBBBBB", title := "Song", filepath := "dl/b.mp4",
           file_size := some 2 }] [])
      = some (recordOf
          { video_id := "AAAAAAAAAAA", title := "Talk", filepath := "dl/a.mp4",
            file_size := some 1 } "2024-01-01T00:00:00") :=
  C4_mark_video_downloaded_no_lost_update "2024-01-01T00:00:00"
    [{ video_id := "AAAAAAAAAAA", title := "Talk", filepath := "dl/a.mp4",
       file_size := some 1 },
     { video_id := "BBBBBBBBBBB", title := "Song", filepath := "dl/b.mp4",
       file_size := some 2 }] [] (by decide)
    { video_id := "AAAAAAAAAAA", title := "Talk", filepath := "dl/a.mp4",
      file_size := some 1 } (by decide)

/-! ### C3: atomic persistence of `save_download_tracker` -/

theorem storeLookup_storeErase_self (p : Pth) (store : FStore) :
    storeLookup p (storeErase p store) = none := by
  induction store with
  | nil => rfl
  | cons e rest ih =>
    obtain ⟨q, d⟩ := e
    unfold storeErase
    by_cases hq : q = p
    · simpa [hq] using ih
    · simpa [storeLookup, hq] using ih

theorem storeLookup_storeErase_other {j p : Pth} (store : FStore)
    (h : j ≠ p) : storeLookup j (storeErase p store) = storeLookup j store := by
  induction store with
  | nil => rfl
  | cons e rest ih =>
    obtain ⟨q, d⟩ := e
    unfold storeErase
    by_cases hq : q = p
    · subst hq
      simp [storeLookup, Ne.symm h, ih]
    · simp [storeLookup, hq, ih]

theorem storeLookup_storeSet_self (p : Pth) (d : Tracker) (store : FStore) :
    storeLookup p (storeSet p d store) = some d := by
  simp [storeSet, storeLookup]

theorem storeLookup_storeSet_other {j p : Pth} (d : Tracker) (store : FStore)
    (h : j ≠ p) : storeLookup j (storeSet p d store) = storeLookup j store := by
  simp only [storeSet, storeLookup, Ne.symm h, if_neg, not_false_iff]
  exact storeLookup_storeErase_other store h

/-- C3: atomic persistence of the tracker save.  Provided the temporary
sibling path differs from the destination (true whenever the tracker
file's suffix is not itself `.tmp`, e.g. the shipped
`download_tracker.json`): a crash at any point before the rename
(`stepsDone ≤ 2`) leaves the previous tracker document untouched and
readable, and a write failure removes the temporary artifact, leaves the
destination untouched, and propagates the error to the caller. -/
theorem C3_save_download_tracker_atomic (tracker partialDoc : Tracker)
    (trackerFile : Pth) (store : FStore) (err : String)
    (hne : tmpPath trackerFile ≠ trackerFile) :
    (∀ stepsDone, stepsDone ≤ 2 →
      storeLookup trackerFile
        (save_tracker_interrupted tracker trackerFile partialDoc stepsDone store)
        = storeLookup trackerFile store) ∧
    (save_download_tracker tracker trackerFile (some err) partialDoc store).1
      = Except.error err ∧
    storeLookup trackerFile
      (save_download_tracker tracker trackerFile (some err) partialDoc store).2
      = storeLookup trackerFile store ∧
    storeLookup (tmpPath trackerFile)
      (save_download_tracker tracker trackerFile (some err) partialDoc store).2
      = none := by
  have hne' : trackerFile ≠ tmpPath trackerFile := Ne.symm hne
  refine ⟨?_, rfl, ?_, ?_⟩
  · intro stepsDone hsteps
    unfold save_tracker_interrupted
    interval_cases stepsDone
    · simp
    · simp [storeLookup_storeSet_other _ _ hne']
    · simp [storeLookup_storeSet_other _ _ hne']
  · unfold save_download_tracker
    simp only
    rw [storeLookup_storeErase_other _ hne']
    exact storeLookup_storeSet_other _ _ hne'
  · unfold save_download_tracker
    simp only
    exact storeLookup_storeErase_self _ _

/-- Witness for C3 at a concrete store holding a previous document. -/
theorem C3_witness :
    (∀ stepsDone, stepsDone ≤ 2 →
      storeLookup ⟨"data", "download_tracker.json"⟩
        (save_tracker_interrupted [] ⟨"data", "download_tracker.json"⟩
          [("AAAAAAAAAAA",
            { video_id := "AAAAAAAAAAA", title := "Talk", filepath := "dl/a.mp4",
              download_date := "2024-01-01T00:00:00", file_size := some 1,
              status := "downloaded" })] stepsDone
          [(⟨"data", "download_tracker.json"⟩, [])])
        = storeLookup ⟨"data", "download_tracker.json"⟩
            [(⟨"data", "download_tracker.json"⟩, [])]) ∧
    (save_download_tracker [] ⟨"data", "download_tracker.json"⟩
      (some "disk full")
      [("AAAAAAAAAAA",
        { video_id := "AAAAAAAAAAA", title := "Talk", filepath := "dl/a.mp4",
          download_date := "2024-01-01T00:00:00", file_size := some 1,
          status := "downloaded" })]
      [(⟨"data", "download_tracker.json"⟩, [])]).1 = Except.error "disk full" ∧
    storeLookup ⟨"data", "download_tracker.json"⟩
      (save_download_tracker [] ⟨"data", "download_tracker.json"⟩
        (some "disk full")
        [("AAAAAAAAAAA",
          { video_id := "AAAAAAAAAAA", title := "Talk", filepath := "dl/a.mp4",
            download_date := "2024-01-01T00:00:00", file_size := some 1,
            status := "downloaded" })]
        [(⟨"data", "download_tracker.json"⟩, [])]).2
      = storeLookup ⟨"data", "download_tracker.json"⟩
          [(⟨"data", "download_tracker.json"⟩, [])] ∧
    storeLookup (tmpPath ⟨"data", "download_tracker.json"⟩)
      (save_download_tracker [] ⟨"data", "download_tracker.json"⟩
        (some "disk full")
        [("AAAAAAAAAAA",
          { video_id := "AAAAAAAAAAA", title := "Talk", filepath := "dl/a.mp4",
            download_date := "2024-01-01T00:00:00", file_size := some 1,
            status := "downloaded" })]
        [(⟨"data", "download_tracker.json"⟩, [])]).2
      = none :=
  C3_save_download_tracker_atomic _ _ _ _ "disk full" (by decide)

/-! ### C2: the tracker check short-circuits the task -/

/-- C2: when the tracker records the video's identifier with status
`"downloaded"`, `download_video` returns the skipped success outcome
(with a null filepath) immediately and leaves the state — filesystem,
tracker, and event trace — exactly as it was.  The unchanged event trace
means no `fetchInvoked` and no `fsProbe` event is emitted: the fetch
engine is never invoked and no filesystem path is examined, whatever the
contents of `st.fs` (in particular whether or not the video's file still
exists on disk). -/
theorem C2_tracker_hit_skips (video : Video) (download_path : String)
    (retry_attempts retry_delay : Nat) (index : Option Nat)
    (audio_only : Bool) (audio_format : String)
    (engine : Nat → EngineResult) (now : String) (st : DLState) (t : Tracker)
    (ht : st.tracker = some t)
    (hdl : is_video_downloaded (video.id.getD "") t = true) :
    download_video video download_path retry_attempts retry_delay index
      audio_only audio_format engine now st
      = ({ success := true, filepath := none, skipped := true, error := none,
           video_id := video.id.getD "",
           video_title := video.title.getD "Unknown Title" }, st) := by
  unfold download_video
  rw [ht]
  simp [hdl]

/-- Witness for C2: tracked video whose file is absent from the
(empty) filesystem; the task still skips without any events. -/
theorem C2_witness :
    download_video
      { id := some "AAAAAAAAAAA", title := some "Talk", url := none, index := some 1 }
      "dl" 3 5 (some 1) false "best"
      (fun _ => EngineResult.downloadError "network down") "2024-01-01T00:00:00"
      { fs := [],
        tracker := some [("AAAAAAAAAAA",
          { video_id := "AAAAAAAAAAA", title := "Talk", filepath := "dl/a.mp4",
            download_date := "2023-01-01T00:00:00", file_size := some 1,
            status := "downloaded" })],
        events := [] }
      = ({ success := true, filepath := none, skipped := true, error := none,
           video_id := "AAAAAAAAAAA", video_title := "Talk" },
         { fs := [],
           tracker := some [("AAAAAAAAAAA",
             { video_id := "AAAAAAAAAAA", title := "Talk", filepath := "dl/a.mp4",
               download_date := "2023-01-01T00:00:00", file_size := some 1,
               status := "downloaded" })],
           events := [] }) :=
  C2_tracker_hit_skips _ "dl" 3 5 (some 1) false "best" _ "2024-01-01T00:00:00"
    _ _ rfl (by decide)

/-! ### C9: the completion set is the additive union of tracker and scan -/

theorem mem_trackerDownloadedIds {t : Tracker} {i : String} :
    i ∈ trackerDownloadedIds t ↔ ∃ r, (i, r) ∈ t ∧ r.status = "downloaded" := by
  unfold trackerDownloadedIds
  simp only [List.mem_map, List.mem_filter]
  constructor
  · rintro ⟨⟨k, r⟩, ⟨hmem, hst⟩, rfl⟩
    exact ⟨r, hmem, by simpa using hst⟩
  · rintro ⟨r, hmem, hst⟩
    exact ⟨(i, r), ⟨hmem, by simpa using hst⟩, rfl⟩

/-- C9: `get_downloaded_videos` returns exactly the union of the
identifiers with a `"downloaded"` tracker record and the identifiers
recovered by the trailing-11-character scan of the local `*.mp4` file
names; the union is strictly additive — a tracked identifier is in the
result even when no corresponding file exists in the directory. -/
theorem C9_get_downloaded_videos_union (t : Tracker) (dp : String)
    (fs : FS) (i : String) :
    (i ∈ get_downloaded_videos t (some dp) fs ↔
      (∃ r, (i, r) ∈ t ∧ r.status = "downloaded") ∨ i ∈ scanMp4Ids dp fs) ∧
    ((∃ r, (i, r) ∈ t ∧ r.status = "downloaded") →
      i ∈ get_downloaded_videos t (some dp) fs) := by
  have hmain : i ∈ get_downloaded_videos t (some dp) fs ↔
      i ∈ trackerDownloadedIds t ∨ i ∈ scanMp4Ids dp fs := by
    unfold get_downloaded_videos
    simp only [List.mem_append, List.mem_filter]
    constructor
    · rintro (h | ⟨h, _⟩)
      · exact Or.inl h
      · exact Or.inr h
    · intro h
      by_cases ht : i ∈ trackerDownloadedIds t
      · exact Or.inl ht
      · rcases h with h | h
        · exact absurd h ht
        · exact Or.inr ⟨h, by simpa using ht⟩
  constructor
  · rw [hmain, mem_trackerDownloadedIds]
  · intro h
    rw [hmain]
    exact Or.inl (mem_trackerDownloadedIds.mpr h)

/-- C9 counterexample: the claim's phrase "a filename found in the
directory" is wider than the code.  The id `AAAAAAAAAAA` is recoverable
by matching a trailing 11-character token out of the filename
`AAAAAAAAAAA.m4a` present in the directory, yet `get_downloaded_videos`
does not return it: the source scans only `*.mp4` names
(`download_dir.glob("*.mp4")`). -/
theorem C9_counterexample :
    extractIdFromStem (stemName "AAAAAAAAAAA.m4a").data = some "AAAAAAAAAAA" ∧
    "AAAAAAAAAAA" ∉ get_downloaded_videos [] (some "dl")
      [(⟨"dl", "AAAAAAAAAAA.m4a"⟩, 5)] := by
  decide

/-- Witness for C9: a tracked identifier is reported complete although
the directory holds no file at all. -/
theorem C9_witness :
    "AAAAAAAAAAA" ∈ get_downloaded_videos
      [("AAAAAAAAAAA",
        { video_id := "AAAAAAAAAAA", title := "Talk", filepath := "dl/a.mp4",
          download_date := "2024-01-01T00:00:00", file_size := some 1,
          status := "downloaded" })]
      (some "dl") [] :=
  (C9_get_downloaded_videos_union _ "dl" [] "AAAAAAAAAAA").2
    ⟨{ video_id := "AAAAAAAAAAA", title := "Talk", filepath := "dl/a.mp4",
       download_date := "2024-01-01T00:00:00", file_size := some 1,
       status := "downloaded" }, by decide, rfl⟩

/-! ### Reaching the retry loop (shared by C5 and C6) -/

/-- The tracker's verdict as seen by `download_video` (`tracker_file and
is_video_downloaded(...)`). -/
def stDownloaded (st : DLState) (i : String) : Bool :=
  match st.tracker with
  | some t => is_video_downloaded i t
  | none => false

/-- Every local path probed before the retry loop starts. -/
def preProbePaths (download_path base : String) (audio_only : Bool)
    (audio_format : String) : List Pth :=
  (expectedFilepath download_path base audio_only audio_format).toList ++
    (if audio_only then audioProbePaths download_path base else [])

def isFetchEvent : Event → Bool
  | Event.fetchInvoked _ => true
  | _ => false

def isSleepEvent : Event → Bool
  | Event.sleepEv _ => true
  | _ => false

def countFetch (evs : List Event) : Nat := evs.countP isFetchEvent

def countSleep (evs : List Event) : Nat := evs.countP isSleepEvent

theorem probeFirst_all_miss {fs : FS} {ps : List Pth}
    (h : ∀ p ∈ ps, fsHas p fs = false) :
    probeFirst fs ps = (ps.map Event.fsProbe, none) := by
  induction ps with
  | nil => rfl
  | cons p rest ih =>
    have hp := h p (List.mem_cons_self p rest)
    unfold probeFirst
    rw [hp]
    simp only [Bool.false_eq_true, if_neg, not_false_iff, List.map_cons]
    rw [ih (fun q hq => h q (List.mem_cons_of_mem p hq))]

/-- The tracker check: when the tracker does not report the identifier
downloaded, `download_video` runs its body. -/
theorem download_video_eq_body (video : Video) (download_path : String)
    (retry_attempts retry_delay : Nat) (index : Option Nat)
    (audio_only : Bool) (audio_format : String)
    (engine : Nat → EngineResult) (now : String) (st : DLState)
    (hmiss : stDownloaded st (video.id.getD "") = false) :
    download_video video download_path retry_attempts retry_delay index
      audio_only audio_format engine now st
      = downloadVideoBody (video.id.getD "") (video.title.getD "Unknown Title")
          download_path retry_attempts retry_delay index audio_only audio_format
          engine now st := by
  unfold stDownloaded at hmiss
  unfold download_video
  dsimp only
  rw [hmiss]
  simp

/-- If none of the pre-loop probe paths exists locally, the body of
`download_video` reduces to the retry loop started at attempt 1 on the
state extended with exactly the probe events. -/
theorem downloadVideoBody_reaches_loop (vid vtitle download_path : String)
    (retry_attempts retry_delay : Nat) (index : Option Nat)
    (audio_only : Bool) (audio_format : String)
    (engine : Nat → EngineResult) (now : String) (st : DLState)
    (hprobes : ∀ p ∈ preProbePaths download_path (filenameBase index vtitle)
      audio_only audio_format, fsHas p st.fs = false) :
    downloadVideoBody vid vtitle download_path retry_attempts retry_delay index
      audio_only audio_format engine now st
      = dlLoop engine download_path (filenameBase index vtitle) audio_only
          audio_format vid vtitle now retry_attempts retry_delay
          retry_attempts 1 none
          { st with events := st.events ++
              (preProbePaths download_path (filenameBase index vtitle)
                audio_only audio_format).map Event.fsProbe } := by
  unfold downloadVideoBody afterExpectedProbe
  dsimp only
  cases audio_only with
  | false =>
    have hef : expectedFilepath download_path (filenameBase index vtitle) false audio_format
        = some ⟨download_path, withSuffix (filenameBase index vtitle) ".mp4"⟩ := rfl
    have hpre : preProbePaths download_path (filenameBase index vtitle) false audio_format
        = [⟨download_path, withSuffix (filenameBase index vtitle) ".mp4"⟩] := by
      simp [preProbePaths, hef]
    have hp : fsHas ⟨download_path, withSuffix (filenameBase index vtitle) ".mp4"⟩ st.fs
        = false := by
      apply hprobes
      rw [hpre]
      exact List.mem_singleton_self _
    rw [hef]
    dsimp only
    rw [hp]
    simp [hpre]
  | true =>
    by_cases haf : audio_format ≠ "" ∧ audio_format ≠ "best"
    · have hef : expectedFilepath download_path (filenameBase index vtitle) true audio_format
          = some ⟨download_path, withSuffix (filenameBase index vtitle) ("." ++ audio_format)⟩ := by
        simp [expectedFilepath, haf]
      have hpre : preProbePaths download_path (filenameBase index vtitle) true audio_format
          = ⟨download_path, withSuffix (filenameBase index vtitle) ("." ++ audio_format)⟩ ::
              audioProbePaths download_path (filenameBase index vtitle) := by
        simp [preProbePaths, hef]
      have hp : fsHas ⟨download_path, withSuffix (filenameBase index vtitle) ("." ++ audio_format)⟩
          st.fs = false := by
        apply hprobes
        rw [hpre]
        exact List.mem_cons_self _ _
      have hmissaudio : ∀ q ∈ audioProbePaths download_path (filenameBase index vtitle),
          fsHas q st.fs = false := by
        intro q hq
        apply hprobes
        rw [hpre]
        exact List.mem_cons_of_mem _ hq
      rw [hef]
      dsimp only
      rw [hp]
      simp only [Bool.false_eq_true, if_neg, not_false_iff, if_pos]
      rw [probeFirst_all_miss hmissaudio]
      simp [hpre]
    · have hef : expectedFilepath download_path (filenameBase index vtitle) true audio_format
          = none := by
        simp only [expectedFilepath, if_pos]
        rw [if_neg haf]
      have hpre : preProbePaths download_path (filenameBase index vtitle) true audio_format
          = audioProbePaths download_path (filenameBase index vtitle) := by
        simp [preProbePaths, hef]
      have hmissaudio : ∀ q ∈ audioProbePaths download_path (filenameBase index vtitle),
          fsHas q st.fs = false := by
        intro q hq
        apply hprobes
        rw [hpre]
        exact hq
      rw [hef]
      dsimp only
      rw [probeFirst_all_miss hmissaudio]
      simp [hpre]

/-! ### C5: retry / non-retry classification -/

theorem countFetch_append (l1 l2 : List Event) :
    countFetch (l1 ++ l2) = countFetch l1 + countFetch l2 := by
  simp [countFetch, List.countP_append]

theorem countSleep_append (l1 l2 : List Event) :
    countSleep (l1 ++ l2) = countSleep l1 + countSleep l2 := by
  simp [countSleep, List.countP_append]

theorem countFetch_probes (ps : List Pth) :
    countFetch (ps.map Event.fsProbe) = 0 := by
  induction ps with
  | nil => rfl
  | cons p rest ih => simp [countFetch, List.countP_cons, isFetchEvent, ih]

theorem countSleep_probes (ps : List Pth) :
    countSleep (ps.map Event.fsProbe) = 0 := by
  induction ps with
  | nil => rfl
  | cons p rest ih => simp [countSleep, List.countP_cons, isSleepEvent, ih]

/-- A `DownloadError` whose message is classified (private/unavailable or
authentication) terminates the loop at once with the classified failure,
consuming exactly the one engine invocation of the current attempt. -/
theorem dlLoop_classified (engine : Nat → EngineResult)
    (download_path base : String) (audio_only : Bool) (audio_format : String)
    (vid vtitle now : String) (retry_attempts retry_delay : Nat)
    (fuel attempt : Nat) (lastErr : Option String) (st : DLState)
    (m c : String) (heng : engine attempt = EngineResult.downloadError m)
    (hc : classifyMsg m = some c) :
    dlLoop engine download_path base audio_only audio_format vid vtitle now
      retry_attempts retry_delay (fuel + 1) attempt lastErr st
      = (mkFailure c vid vtitle,
         { st with events := st.events ++ [Event.fetchInvoked attempt] }) := by
  unfold dlLoop
  rw [heng]
  simp [hc]

/-- A fetch failure the loop does not classify: an unclassified
`DownloadError` or any other exception. -/
def genericFail : EngineResult → Option String
  | EngineResult.ok _ => none
  | EngineResult.downloadError m => if (classifyMsg m).isSome then none else some m
  | EngineResult.otherError m => some m

/-- When every remaining attempt fails generically, the loop runs all of
them — one engine invocation per attempt, one sleep between consecutive
attempts — and finally fails with the last attempt's message, leaving
filesystem and tracker untouched. -/
theorem dlLoop_generic (engine : Nat → EngineResult)
    (download_path base : String) (audio_only : Bool) (audio_format : String)
    (vid vtitle now : String) (retry_attempts retry_delay : Nat)
    (msgs : Nat → String) :
    ∀ fuel attempt lastErr (st : DLState),
    (∀ a, attempt ≤ a → a ≤ retry_attempts → genericFail (engine a) = some (msgs a)) →
    1 ≤ attempt → attempt ≤ retry_attempts →
    fuel + attempt = retry_attempts + 1 →
    ∃ st' : DLState,
      dlLoop engine download_path base audio_only audio_format vid vtitle now
        retry_attempts retry_delay fuel attempt lastErr st
        = (mkFailure (msgs retry_attempts) vid vtitle, st') ∧
      st'.fs = st.fs ∧ st'.tracker = st.tracker ∧
      countFetch st'.events = countFetch st.events + fuel ∧
      countSleep st'.events = countSleep st.events + (fuel - 1) := by
  intro fuel
  induction fuel with
  | zero =>
    intro attempt lastErr st _ _ hle hfuel
    omega
  | succ f ih =>
    intro attempt lastErr st h h1 hle hfuel
    have hgen := h attempt (Nat.le_refl attempt) hle
    cases heng : engine attempt with
    | ok created =>
      rw [heng] at hgen
      simp [genericFail] at hgen
    | downloadError m =>
      rw [heng] at hgen
      unfold genericFail at hgen
      by_cases hcl : (classifyMsg m).isSome
      · simp [hcl] at hgen
      · simp only [hcl, Bool.false_eq_true, if_neg, not_false_iff,
          Option.some.injEq] at hgen
        have hclnone : classifyMsg m = none := Option.not_isSome_iff_eq_none.mp hcl
        unfold dlLoop
        rw [heng]
        dsimp only
        rw [hclnone]
        dsimp only
        by_cases hlt : attempt < retry_attempts
        · rw [if_pos hlt]
          obtain ⟨st', heq, hfs, htr, hcf, hcs⟩ :=
            ih (attempt + 1) (some m)
              { st with events := (st.events ++ [Event.fetchInvoked attempt])
                  ++ [Event.sleepEv retry_delay] }
              (fun a ha hb => h a (by omega) hb) (by omega) (by omega) (by omega)
          refine ⟨st', heq, hfs, htr, ?_, ?_⟩
          · rw [hcf]
            simp only [countFetch_append]
            simp [countFetch, List.countP_cons, isFetchEvent]
            omega
          · rw [hcs]
            simp only [countSleep_append]
            simp [countSleep, List.countP_cons, isSleepEvent, isFetchEvent]
            omega
        · rw [if_neg hlt]
          have hat : attempt = retry_attempts := by omega
          have hf0 : f = 0 := by omega
          subst hf0
          unfold dlLoop
          refine ⟨{ st with events := st.events ++ [Event.fetchInvoked attempt] },
            ?_, rfl, rfl, ?_, ?_⟩
          · simp [hgen, hat]
          · simp [countFetch_append, countFetch, List.countP_cons, isFetchEvent]
          · simp [countSleep_append, countSleep, List.countP_cons, isSleepEvent,
              isFetchEvent]
    | otherError m =>
      rw [heng] at hgen
      unfold genericFail at hgen
      have hm : m = msgs attempt := by
        simpa using hgen
      unfold dlLoop
      rw [heng]
      dsimp only
      by_cases hlt : attempt < retry_attempts
      · rw [if_pos hlt]
        obtain ⟨st', heq, hfs, htr, hcf, hcs⟩ :=
          ih (attempt + 1) (some m)
            { st with events := (st.events ++ [Event.fetchInvoked attempt])
                ++ [Event.sleepEv retry_delay] }
            (fun a ha hb => h a (by omega) hb) (by omega) (by omega) (by omega)
        refine ⟨st', heq, hfs, htr, ?_, ?_⟩
        · rw [hcf]
          simp only [countFetch_append]
          simp [countFetch, List.countP_cons, isFetchEvent]
          omega
        · rw [hcs]
          simp only [countSleep_append]
          simp [countSleep, List.countP_cons, isSleepEvent, isFetchEvent]
          omega
      · rw [if_neg hlt]
        have hat : attempt = retry_attempts := by omega
        have hf0 : f = 0 := by omega
        subst hf0
        unfold dlLoop
        refine ⟨{ st with events := st.events ++ [Event.fetchInvoked attempt] },
          ?_, rfl, rfl, ?_, ?_⟩
        · simp [hm, hat]
        · simp [countFetch_append, countFetch, List.countP_cons, isFetchEvent]
        · simp [countSleep_append, countSleep, List.countP_cons, isSleepEvent,
            isFetchEvent]

/-- C5: with the tracker and the local probes not short-circuiting the
task, (a) a fetch error classified as private/unavailable or as an
authentication requirement ends the task after exactly one engine
invocation with the corresponding classified failure outcome, while
(b) generic fetch failures are retried with a fixed delay until exactly
`retry_attempts` engine invocations have been made (with a sleep between
consecutive attempts), after which the task fails carrying the last
attempt's error message. -/
theorem C5_retry_classification (video : Video) (download_path : String)
    (retry_attempts retry_delay : Nat) (index : Option Nat)
    (audio_only : Bool) (audio_format : String)
    (engine : Nat → EngineResult) (now : String) (st : DLState)
    (hmiss : stDownloaded st (video.id.getD "") = false)
    (hprobes : ∀ p ∈ preProbePaths download_path
      (filenameBase index (video.title.getD "Unknown Title")) audio_only audio_format,
      fsHas p st.fs = false)
    (hra : 1 ≤ retry_attempts) :
    (∀ m c, engine 1 = EngineResult.downloadError m → classifyMsg m = some c →
      (download_video video download_path retry_attempts retry_delay index
        audio_only audio_format engine now st).1
        = mkFailure c (video.id.getD "") (video.title.getD "Unknown Title") ∧
      countFetch (download_video video download_path retry_attempts retry_delay index
        audio_only audio_format engine now st).2.events
        = countFetch st.events + 1) ∧
    (∀ msgs : Nat → String,
      (∀ a, 1 ≤ a → a ≤ retry_attempts → genericFail (engine a) = some (msgs a)) →
      (download_video video download_path retry_attempts retry_delay index
        audio_only audio_format engine now st).1
        = mkFailure (msgs retry_attempts) (video.id.getD "")
            (video.title.getD "Unknown Title") ∧
      countFetch (download_video video download_path retry_attempts retry_delay index
        audio_only audio_format engine now st).2.events
        = countFetch st.events + retry_attempts ∧
      countSleep (download_video video download_path retry_attempts retry_delay index
        audio_only audio_format engine now st).2.events
        = countSleep st.events + (retry_attempts - 1)) := by
  have hred : download_video video download_path retry_attempts retry_delay index
      audio_only audio_format engine now st
      = dlLoop engine download_path
          (filenameBase index (video.title.getD "Unknown Title")) audio_only
          audio_format (video.id.getD "") (video.title.getD "Unknown Title") now
          retry_attempts retry_delay retry_attempts 1 none
          { st with events := st.events ++
              (preProbePaths download_path
                (filenameBase index (video.title.getD "Unknown Title"))
                audio_only audio_format).map Event.fsProbe } := by
    rw [download_video_eq_body video download_path retry_attempts retry_delay index
      audio_only audio_format engine now st hmiss]
    exact downloadVideoBody_reaches_loop _ _ _ _ _ _ _ _ _ _ _ hprobes
  constructor
  · intro m c heng hc
    obtain ⟨f, hf⟩ : ∃ f, retry_attempts = f + 1 := ⟨retry_attempts - 1, by omega⟩
    subst hf
    rw [hred]
    rw [dlLoop_classified engine download_path _ audio_only audio_format _ _ now
      _ retry_delay f 1 none _ m c heng hc]
    refine ⟨rfl, ?_⟩
    simp [countFetch_append, countFetch_probes, countFetch, List.countP_cons,
      isFetchEvent]
  · intro msgs hgenall
    obtain ⟨st', heq, _, _, hcf, hcs⟩ :=
      dlLoop_generic engine download_path
        (filenameBase index (video.title.getD "Unknown Title")) audio_only
        audio_format (video.id.getD "") (video.title.getD "Unknown Title") now
        retry_attempts retry_delay msgs retry_attempts 1 none
        { st with events := st.events ++
            (preProbePaths download_path
              (filenameBase index (video.title.getD "Unknown Title"))
              audio_only audio_format).map Event.fsProbe }
        hgenall (Nat.le_refl 1) hra (by omega)
    rw [hred, heq]
    refine ⟨rfl, ?_, ?_⟩
    · rw [hcf]
      simp [countFetch_append, countFetch_probes]
    · rw [hcs]
      simp [countSleep_append, countSleep_probes]

/-- Witness for C5: an empty state; part (a) at a "Private video" error,
instantiated through the theorem. -/
theorem C5_witness :
    (download_video
      { id := some "AAAAAAAAAAA", title := some "Talk", url := none, index := some 1 }
      "dl" 3 5 (some 1) false "best"
      (fun _ => EngineResult.downloadError "ERROR: Private video") "2024-01-01T00:00:00"
      { fs := [], tracker := some [], events := [] }).1
      = mkFailure "Video unavailable or private" "AAAAAAAAAAA" "Talk" ∧
    countFetch (download_video
      { id := some "AAAAAAAAAAA", title := some "Talk", url := none, index := some 1 }
      "dl" 3 5 (some 1) false "best"
      (fun _ => EngineResult.downloadError "ERROR: Private video") "2024-01-01T00:00:00"
      { fs := [], tracker := some [], events := [] }).2.events
      = countFetch ([] : List Event) + 1 :=
  (C5_retry_classification
    { id := some "AAAAAAAAAAA", title := some "Talk", url := none, index := some 1 }
    "dl" 3 5 (some 1) false "best"
    (fun _ => EngineResult.downloadError "ERROR: Private video") "2024-01-01T00:00:00"
    { fs := [], tracker := some [], events := [] }
    (by decide) (by decide) (by decide)).1
    "ERROR: Private video" "Video unavailable or private" rfl (by decide)

/-! ### C6: verification gating after an engine-reported success -/

theorem fsLookup_fsErase_other {j p : Pth} (fs : FS) (h : j ≠ p) :
    fsLookup j (fsErase p fs) = fsLookup j fs := by
  induction fs with
  | nil => rfl
  | cons e rest ih =>
    obtain ⟨q, sz⟩ := e
    unfold fsErase
    by_cases hq : q = p
    · subst hq
      simp [fsLookup, Ne.symm h, ih]
    · simp [fsLookup, hq, ih]

theorem fsHas_fsSet_other {j p : Pth} (sz : Nat) (fs : FS) (h : j ≠ p) :
    fsHas j (fsSet p sz fs) = fsHas j fs := by
  unfold fsHas fsSet
  simp only [fsLookup, Ne.symm h, if_neg, not_false_iff]
  rw [fsLookup_fsErase_other fs h]

theorem fsHas_fsSetMany_not_mem {j : Pth} (l : List (Pth × Nat)) (fs : FS)
    (h : j ∉ l.map Prod.fst) :
    fsHas j (fsSetMany fs l) = fsHas j fs := by
  induction l generalizing fs with
  | nil => rfl
  | cons e rest ih =>
    obtain ⟨p, sz⟩ := e
    simp only [List.map_cons, List.mem_cons, not_or] at h
    unfold fsSetMany
    rw [ih _ h.2]
    exact fsHas_fsSet_other sz fs h.1

theorem preProbePaths_subset_possibleFiles (download_path base : String)
    (audio_only : Bool) (audio_format : String) :
    ∀ p ∈ preProbePaths download_path base audio_only audio_format,
      p ∈ possibleFiles download_path base audio_only audio_format := by
  intro p hp
  cases audio_only with
  | false =>
    simp [preProbePaths, expectedFilepath, audioProbePaths] at hp
    simp [possibleFiles, hp]
  | true =>
    by_cases haf : audio_format ≠ "" ∧ audio_format ≠ "best"
    · simp [preProbePaths, expectedFilepath, audioProbePaths, haf] at hp
      simp [possibleFiles, haf]
      tauto
    · simp [preProbePaths, expectedFilepath, audioProbePaths, haf] at hp
      simp [possibleFiles, haf]
      tauto

/-- When every engine invocation reports success but never materializes
any of the candidate output files, each attempt fails the post-fetch
verification and is retried; after the last attempt the task fails with
the file-not-found message, and the tracker is never written. -/
theorem dlLoop_ok_never_found (engine : Nat → EngineResult)
    (download_path base : String) (audio_only : Bool) (audio_format : String)
    (vid vtitle now : String) (retry_attempts retry_delay : Nat) :
    ∀ fuel attempt lastErr (st : DLState),
    (∀ a, attempt ≤ a → a ≤ retry_attempts → ∃ cr, engine a = EngineResult.ok cr) →
    (∀ a cr, engine a = EngineResult.ok cr →
      ∀ p ∈ possibleFiles download_path base audio_only audio_format,
        p ∉ cr.map Prod.fst) →
    (∀ p ∈ possibleFiles download_path base audio_only audio_format,
      fsHas p st.fs = false) →
    1 ≤ attempt → attempt ≤ retry_attempts →
    fuel + attempt = retry_attempts + 1 →
    ∃ st' : DLState,
      dlLoop engine download_path base audio_only audio_format vid vtitle now
        retry_attempts retry_delay fuel attempt lastErr st
        = (mkFailure "Downloaded file not found after download" vid vtitle, st') ∧
      st'.tracker = st.tracker ∧
      countFetch st'.events = countFetch st.events + fuel := by
  intro fuel
  induction fuel with
  | zero =>
    intro attempt lastErr st _ _ _ _ hle hfuel
    omega
  | succ f ih =>
    intro attempt lastErr st hok hclean habsent h1 hle hfuel
    obtain ⟨cr, heng⟩ := hok attempt (Nat.le_refl attempt) hle
    have habsent1 : ∀ p ∈ possibleFiles download_path base audio_only audio_format,
        fsHas p (fsSetMany st.fs cr) = false := by
      intro p hp
      rw [fsHas_fsSetMany_not_mem cr st.fs (hclean attempt cr heng p hp)]
      exact habsent p hp
    unfold dlLoop
    rw [heng]
    dsimp only
    rw [probeFirst_all_miss habsent1]
    dsimp only
    by_cases hlt : attempt < retry_attempts
    · rw [if_pos hlt]
      obtain ⟨st', heq, htr, hcf⟩ :=
        ih (attempt + 1) (some "Downloaded file not found after download")
          { st with
            fs := fsSetMany st.fs cr,
            events := (st.events ++ [Event.fetchInvoked attempt]
              ++ (possibleFiles download_path base audio_only audio_format).map
                  Event.fsProbe) ++ [Event.sleepEv retry_delay] }
          (fun a ha hb => hok a (by omega) hb) hclean habsent1
          (by omega) (by omega) (by omega)
      refine ⟨st', heq, htr, ?_⟩
      rw [hcf]
      dsimp only
      simp only [countFetch_append, countFetch_probes]
      simp [countFetch, List.countP_cons, isFetchEvent]
      omega
    · rw [if_neg hlt]
      have hf0 : f = 0 := by omega
      subst hf0
      unfold dlLoop
      refine ⟨_, rfl, rfl, ?_⟩
      dsimp only
      simp only [countFetch_append, countFetch_probes]
      simp [countFetch, List.countP_cons, isFetchEvent]

/-- C6: the engine's self-reported success is never trusted blindly —
if no file exists in the target directory under any expected extension
for the mode after each reported-successful fetch, `download_video`
returns a failure outcome (the file-not-found classification after the
final attempt) and never records the video in the tracker. -/
theorem C6_verification_gating (video : Video) (download_path : String)
    (retry_attempts retry_delay : Nat) (index : Option Nat)
    (audio_only : Bool) (audio_format : String)
    (engine : Nat → EngineResult) (now : String) (st : DLState)
    (hmiss : stDownloaded st (video.id.getD "") = false)
    (hra : 1 ≤ retry_attempts)
    (hok : ∀ a, 1 ≤ a → a ≤ retry_attempts → ∃ cr, engine a = EngineResult.ok cr)
    (hclean : ∀ a cr, engine a = EngineResult.ok cr →
      ∀ p ∈ possibleFiles download_path
        (filenameBase index (video.title.getD "Unknown Title")) audio_only audio_format,
        p ∉ cr.map Prod.fst)
    (habsent : ∀ p ∈ possibleFiles download_path
      (filenameBase index (video.title.getD "Unknown Title")) audio_only audio_format,
      fsHas p st.fs = false) :
    (download_video video download_path retry_attempts retry_delay index
      audio_only audio_format engine now st).1
      = mkFailure "Downloaded file not found after download" (video.id.getD "")
          (video.title.getD "Unknown Title") ∧
    (download_video video download_path retry_attempts retry_delay index
      audio_only audio_format engine now st).2.tracker = st.tracker := by
  have hprobes : ∀ p ∈ preProbePaths download_path
      (filenameBase index (video.title.getD "Unknown Title")) audio_only audio_format,
      fsHas p st.fs = false := by
    intro p hp
    exact habsent p (preProbePaths_subset_possibleFiles _ _ _ _ p hp)
  have hred : download_video video download_path retry_attempts retry_delay index
      audio_only audio_format engine now st
      = dlLoop engine download_path
          (filenameBase index (video.title.getD "Unknown Title")) audio_only
          audio_format (video.id.getD "") (video.title.getD "Unknown Title") now
          retry_attempts retry_delay retry_attempts 1 none
          { st with events := st.events ++
              (preProbePaths download_path
                (filenameBase index (video.title.getD "Unknown Title"))
                audio_only audio_format).map Event.fsProbe } := by
    rw [download_video_eq_body video download_path retry_attempts retry_delay index
      audio_only audio_format engine now st hmiss]
    exact downloadVideoBody_reaches_loop _ _ _ _ _ _ _ _ _ _ _ hprobes
  obtain ⟨st', heq, htr, _⟩ :=
    dlLoop_ok_never_found engine download_path
      (filenameBase index (video.title.getD "Unknown Title")) audio_only
      audio_format (video.id.getD "") (video.title.getD "Unknown Title") now
      retry_attempts retry_delay retry_attempts 1 none
      { st with events := st.events ++
          (preProbePaths download_path
            (filenameBase index (video.title.getD "Unknown Title"))
            audio_only audio_format).map Event.fsProbe }
      hok hclean habsent (Nat.le_refl 1) hra (by omega)
  rw [hred, heq]
  exact ⟨rfl, htr⟩

/-- Witness for C6: the engine claims success without creating any
file; the task fails and the tracker stays empty. -/
theorem C6_witness :
    (download_video
      { id := some "AAAAAAAAAAA", title := some "Talk", url := none, index := some 1 }
      "dl" 2 5 (some 1) false "best"
      (fun _ => EngineResult.ok []) "2024-01-01T00:00:00"
      { fs := [], tracker := some [], events := [] }).1
      = mkFailure "Downloaded file not found after download" "AAAAAAAAAAA" "Talk" ∧
    (download_video
      { id := some "AAAAAAAAAAA", title := some "Talk", url := none, index := some 1 }
      "dl" 2 5 (some 1) false "best"
      (fun _ => EngineResult.ok []) "2024-01-01T00:00:00"
      { fs := [], tracker := some [], events := [] }).2.tracker
      = DLState.tracker { fs := [], tracker := some [], events := [] } :=
  C6_verification_gating
    { id := some "AAAAAAAAAAA", title := some "Talk", url := none, index := some 1 }
    "dl" 2 5 (some 1) false "best" (fun _ => EngineResult.ok [])
    "2024-01-01T00:00:00" { fs := [], tracker := some [], events := [] }
    (by decide) (by decide)
    (fun a _ _ => ⟨[], rfl⟩)
    (fun a cr hcr p hp => by
      cases hcr
      simp)
    (fun p hp => rfl)

/-! ### C7: scheduler aggregation -/

/-- `Success` in the spec's sense: successful and not skipped. -/
def isSuccessOutcome (o : Outcome) : Bool := o.success && !o.skipped

/-- `Failure` in the spec's sense: not successful. -/
def isFailureOutcome (o : Outcome) : Bool := !o.success

/-- `SuccessSkipped` in the spec's sense. -/
def isSkippedOutcome (o : Outcome) : Bool := o.skipped

/-- The retry loop never returns a skipped outcome. -/
theorem dlLoop_skipped_false (engine : Nat → EngineResult)
    (download_path base : String) (audio_only : Bool) (audio_format : String)
    (vid vtitle now : String) (retry_attempts retry_delay : Nat) :
    ∀ fuel attempt lastErr (st : DLState),
    (dlLoop engine download_path base audio_only audio_format vid vtitle now
      retry_attempts retry_delay fuel attempt lastErr st).1.skipped = false := by
  intro fuel
  induction fuel with
  | zero => intro attempt lastErr st; rfl
  | succ f ih =>
    intro attempt lastErr st
    unfold dlLoop
    cases engine attempt with
    | ok created =>
      dsimp only
      cases (probeFirst (fsSetMany st.fs created)
        (possibleFiles download_path base audio_only audio_format)).2 with
      | some p => rfl
      | none =>
        dsimp only
        split
        · exact ih _ _ _
        · exact ih _ _ _
    | downloadError m =>
      dsimp only
      cases classifyMsg m with
      | some c => rfl
      | none =>
        dsimp only
        split
        · exact ih _ _ _
        · exact ih _ _ _
    | otherError m =>
      dsimp only
      split
      · exact ih _ _ _
      · exact ih _ _ _

/-- Every outcome of `download_video` that is skipped is also
successful (the failure paths never set the skipped flag). -/
theorem download_video_skip_imp_success (video : Video) (download_path : String)
    (retry_attempts retry_delay : Nat) (index : Option Nat)
    (audio_only : Bool) (audio_format : String)
    (engine : Nat → EngineResult) (now : String) (st : DLState) :
    (download_video video download_path retry_attempts retry_delay index
      audio_only audio_format engine now st).1.skipped = true →
    (download_video video download_path retry_attempts retry_delay index
      audio_only audio_format engine now st).1.success = true := by
  have hafter : ∀ vid vtitle (st2 : DLState),
      (afterExpectedProbe vid vtitle download_path retry_attempts retry_delay index
        audio_only audio_format engine now st2).1.skipped = true →
      (afterExpectedProbe vid vtitle download_path retry_attempts retry_delay index
        audio_only audio_format engine now st2).1.success = true := by
    intro vid vtitle st2
    unfold afterExpectedProbe
    dsimp only
    split
    · split
      · intro _; rfl
      · rw [dlLoop_skipped_false]
        intro h
        simp at h
    · rw [dlLoop_skipped_false]
      intro h
      simp at h
  have hbody : ∀ vid vtitle (st1 : DLState),
      (downloadVideoBody vid vtitle download_path retry_attempts retry_delay index
        audio_only audio_format engine now st1).1.skipped = true →
      (downloadVideoBody vid vtitle download_path retry_attempts retry_delay index
        audio_only audio_format engine now st1).1.success = true := by
    intro vid vtitle st1
    unfold downloadVideoBody
    dsimp only
    split
    · split
      · intro _; rfl
      · exact hafter _ _ _
    · exact hafter _ _ _
  unfold download_video
  dsimp only
  split
  · intro _; rfl
  · exact hbody _ _ _

/-- The counter bookkeeping of the worker pool: the counters added by a
run are exactly the counts of `Success`, `Failure` and `SuccessSkipped`
outcomes among the results the run appends, and every appended outcome
satisfies the skipped-implies-success invariant. -/
theorem runPool_spec (download_path : String) (retry_attempts retry_delay : Nat)
    (audio_only : Bool) (audio_format : String)
    (engine : Nat → Nat → EngineResult) (now : String) :
    ∀ (vs : List Video) (k : Nat) (st : DLState) (results : List Outcome)
      (successful failed skipped : Nat),
    ∃ newResults : List Outcome,
      (runPool download_path retry_attempts retry_delay audio_only audio_format
        engine now k vs st results successful failed skipped).1
        = results ++ newResults ∧
      (∀ r ∈ newResults, r.skipped = true → r.success = true) ∧
      (runPool download_path retry_attempts retry_delay audio_only audio_format
        engine now k vs st results successful failed skipped).2.1
        = successful + newResults.countP isSuccessOutcome ∧
      (runPool download_path retry_attempts retry_delay audio_only audio_format
        engine now k vs st results successful failed skipped).2.2.1
        = failed + newResults.countP isFailureOutcome ∧
      (runPool download_path retry_attempts retry_delay audio_only audio_format
        engine now k vs st results successful failed skipped).2.2.2.1
        = skipped + newResults.countP isSkippedOutcome ∧
      newResults.length = vs.length := by
  intro vs
  induction vs with
  | nil =>
    intro k st results successful failed skipped
    exact ⟨[], by simp [runPool], by simp, by simp [runPool],
      by simp [runPool], by simp [runPool], rfl⟩
  | cons v rest ih =>
    intro k st results successful failed skipped
    unfold runPool
    set r := download_video v download_path retry_attempts retry_delay v.index
      audio_only audio_format (engine k) now st with hr
    have hwf : r.1.skipped = true → r.1.success = true := by
      rw [hr]
      exact download_video_skip_imp_success _ _ _ _ _ _ _ _ _ _
    by_cases hsk : r.1.skipped
    · rw [if_pos hsk]
      obtain ⟨nr, h1, h2, h3, h4, h5, h6⟩ := ih (k + 1) r.2 (results ++ [r.1])
        successful failed (skipped + 1)
      refine ⟨r.1 :: nr, ?_, ?_, ?_, ?_, ?_, ?_⟩
      · rw [h1, List.append_assoc]; rfl
      · intro q hq
        rcases List.mem_cons.mp hq with rfl | hq2
        · exact fun _ => hwf hsk
        · exact h2 q hq2
      · rw [h3]
        have : isSuccessOutcome r.1 = false := by
          simp [isSuccessOutcome, hsk]
        simp [List.countP_cons, this]
      · rw [h4]
        have : isFailureOutcome r.1 = false := by
          simp [isFailureOutcome, hwf hsk]
        simp [List.countP_cons, this]
      · rw [h5]
        have : isSkippedOutcome r.1 = true := by
          simp [isSkippedOutcome, hsk]
        simp [List.countP_cons, this]
        omega
      · simpa using h6
    · rw [if_neg hsk]
      have hskf : r.1.skipped = false := by
        simpa using hsk
      by_cases hsu : r.1.success
      · rw [if_pos hsu]
        obtain ⟨nr, h1, h2, h3, h4, h5, h6⟩ := ih (k + 1) r.2 (results ++ [r.1])
          (successful + 1) failed skipped
        refine ⟨r.1 :: nr, ?_, ?_, ?_, ?_, ?_, ?_⟩
        · rw [h1, List.append_assoc]; rfl
        · intro q hq
          rcases List.mem_cons.mp hq with rfl | hq2
          · exact fun _ => hsu
          · exact h2 q hq2
        · rw [h3]
          have : isSuccessOutcome r.1 = true := by
            simp [isSuccessOutcome, hsu, hskf]
          simp [List.countP_cons, this]
          omega
        · rw [h4]
          have : isFailureOutcome r.1 = false := by
            simp [isFailureOutcome, hsu]
          simp [List.countP_cons, this]
        · rw [h5]
          have : isSkippedOutcome r.1 = false := by
            simp [isSkippedOutcome, hskf]
          simp [List.countP_cons, this]
        · simpa using h6
      · rw [if_neg hsu]
        have hsuf : r.1.success = false := by
          simpa using hsu
        obtain ⟨nr, h1, h2, h3, h4, h5, h6⟩ := ih (k + 1) r.2 (results ++ [r.1])
          successful (failed + 1) skipped
        refine ⟨r.1 :: nr, ?_, ?_, ?_, ?_, ?_, ?_⟩
        · rw [h1, List.append_assoc]; rfl
        · intro q hq
          rcases List.mem_cons.mp hq with rfl | hq2
          · intro hq3
            rw [hskf] at hq3
            cases hq3
          · exact h2 q hq2
        · rw [h3]
          have : isSuccessOutcome r.1 = false := by
            simp [isSuccessOutcome, hsuf]
          simp [List.countP_cons, this]
        · rw [h4]
          have : isFailureOutcome r.1 = true := by
            simp [isFailureOutcome, hsuf]
          simp [List.countP_cons, this]
          omega
        · rw [h5]
          have : isSkippedOutcome r.1 = false := by
            simp [isSkippedOutcome, hskf]
          simp [List.countP_cons, this]
        · simpa using h6

/-- C7: the batch summary aggregates exactly: `total` is the size of the
original input sequence, `successful` counts the `Success` outcomes,
`failed` counts the `Failure` outcomes, and `skipped` counts the
`SuccessSkipped` outcomes plus the descriptors removed by the resume
pre-filter; when the post-filter sequence is empty no task is dispatched
(results empty, state untouched) and the original total is preserved. -/
theorem C7_download_playlist_aggregation (videos : List Video)
    (download_path : String) (retry_attempts retry_delay : Nat) (resume : Bool)
    (audio_only : Bool) (audio_format : String)
    (engine : Nat → Nat → EngineResult) (now : String) (st : DLState) :
    (download_playlist videos download_path retry_attempts retry_delay resume
      audio_only audio_format engine now st).1.total = videos.length ∧
    (download_playlist videos download_path retry_attempts retry_delay resume
      audio_only audio_format engine now st).1.successful
      = ((download_playlist videos download_path retry_attempts retry_delay resume
          audio_only audio_format engine now st).1.results).countP isSuccessOutcome ∧
    (download_playlist videos download_path retry_attempts retry_delay resume
      audio_only audio_format engine now st).1.failed
      = ((download_playlist videos download_path retry_attempts retry_delay resume
          audio_only audio_format engine now st).1.results).countP isFailureOutcome ∧
    (download_playlist videos download_path retry_attempts retry_delay resume
      audio_only audio_format engine now st).1.skipped
      = ((download_playlist videos download_path retry_attempts retry_delay resume
          audio_only audio_format engine now st).1.results).countP isSkippedOutcome
        + (videos.length
            - (videosToDownload videos resume download_path audio_only st).length) ∧
    (videosToDownload videos resume download_path audio_only st = [] →
      (download_playlist videos download_path retry_attempts retry_delay resume
        audio_only audio_format engine now st).1.results = [] ∧
      (download_playlist videos download_path retry_attempts retry_delay resume
        audio_only audio_format engine now st).1.successful = 0 ∧
      (download_playlist videos download_path retry_attempts retry_delay resume
        audio_only audio_format engine now st).1.failed = 0 ∧
      (download_playlist videos download_path retry_attempts retry_delay resume
        audio_only audio_format engine now st).2 = st) := by
  have hskc : (if resume then videos.length
      - (videosToDownload videos resume download_path audio_only st).length else 0)
      = videos.length - (videosToDownload videos resume download_path audio_only st).length := by
    cases resume with
    | true => rfl
    | false => simp [videosToDownload]
  unfold download_playlist
  dsimp only
  by_cases hempty : (videosToDownload videos resume download_path audio_only st).isEmpty
  · rw [if_pos hempty]
    dsimp only
    have hnil : videosToDownload videos resume download_path audio_only st = [] :=
      List.isEmpty_iff.mp hempty
    refine ⟨rfl, by simp, by simp, ?_, fun _ => ⟨rfl, rfl, rfl, rfl⟩⟩
    simp [hskc]
  · rw [if_neg hempty]
    dsimp only
    obtain ⟨nr, h1, _, h3, h4, h5, _⟩ := runPool_spec download_path retry_attempts
      retry_delay audio_only audio_format engine now
      (videosToDownload videos resume download_path audio_only st) 0 st [] 0 0 0
    rw [h1, h3, h4, h5]
    simp only [List.nil_append, Nat.zero_add]
    refine ⟨by trivial, by trivial, by trivial, ?_, ?_⟩
    · rw [hskc]
    · intro hnil
      rw [hnil] at hempty
      simp at hempty

/-- Witness for C7: a two-descriptor batch against an engine that
produces the file for the first and fails generically for the second. -/
theorem C7_witness :
    (download_playlist
      [{ id := some "AAAAAAAAAAA", title := some "Talk", url := none, index := some 1 },
       { id := some "BBBBBBBBBBB", title := some "Song", url := none, index := some 2 }]
      "dl" 1 0 true false "best"
      (fun k _ => if k = 0 then EngineResult.ok [(⟨"dl", "0001 - Talk.mp4"⟩, 7)]
        else EngineResult.downloadError "timeout") "2024-01-01T00:00:00"
      { fs := [], tracker := some [], events := [] }).1.total = 2 ∧
    (download_playlist
      [{ id := some "AAAAAAAAAAA", title := some "Talk", url := none, index := some 1 },
       { id := some "BBBBBBBBBBB", title := some "Song", url := none, index := some 2 }]
      "dl" 1 0 true false "best"
      (fun k _ => if k = 0 then EngineResult.ok [(⟨"dl", "0001 - Talk.mp4"⟩, 7)]
        else EngineResult.downloadError "timeout") "2024-01-01T00:00:00"
      { fs := [], tracker := some [], events := [] }).1.successful
      = ((download_playlist
      [{ id := some "AAAAAAAAAAA", title := some "Talk", url := none, index := some 1 },
       { id := some "BBBBBBBBBBB", title := some "Song", url := none, index := some 2 }]
      "dl" 1 0 true false "best"
      (fun k _ => if k = 0 then EngineResult.ok [(⟨"dl", "0001 - Talk.mp4"⟩, 7)]
        else EngineResult.downloadError "timeout") "2024-01-01T00:00:00"
      { fs := [], tracker := some [], events := [] }).1.results).countP isSuccessOutcome :=
  ⟨(C7_download_playlist_aggregation _ "dl" 1 0 true false "best" _ "2024-01-01T00:00:00"
      { fs := [], tracker := some [], events := [] }).1,
   (C7_download_playlist_aggregation _ "dl" 1 0 true false "best" _ "2024-01-01T00:00:00"
      { fs := [], tracker := some [], events := [] }).2.1⟩

/-! ### C1: idempotence of the scheduler

Infrastructure: a preorder on states capturing what a download run can
only ever add — tracker records marked `"downloaded"` stay, files whose
`pathlib` suffix is `.mp4` stay (the only deletion the task performs is
the rename of a non-`.mp4` container), and the presence of a tracker
file never changes. -/

theorem lookupT_mem {i : String} {r : DownloadRecord} {t : Tracker}
    (h : lookupT i t = some r) : (i, r) ∈ t := by
  induction t with
  | nil => cases h
  | cons e rest ih =>
    obtain ⟨k, v⟩ := e
    unfold lookupT at h
    by_cases hk : k = i
    · subst hk
      simp only [if_pos] at h
      cases h
      exact List.mem_cons_self _ _
    · rw [if_neg hk] at h
      exact List.mem_cons_of_mem _ (ih h)

theorem mem_lookupT_of_nodup {i : String} {r : DownloadRecord} {t : Tracker}
    (hwf : trackerWF t) (h : (i, r) ∈ t) : lookupT i t = some r := by
  induction t with
  | nil => cases h
  | cons e rest ih =>
    obtain ⟨k, v⟩ := e
    unfold trackerWF at hwf
    simp only [List.map_cons, List.nodup_cons] at hwf
    rcases List.mem_cons.mp h with heq | hmem
    · cases heq
      simp [lookupT]
    · have hk : k ≠ i := by
        intro hk
        subst hk
        exact hwf.1 (List.mem_map.mpr ⟨(k, r), hmem, rfl⟩)
      unfold lookupT
      rw [if_neg hk]
      exact ih hwf.2 hmem

theorem is_video_downloaded_iff {i : String} {t : Tracker} :
    is_video_downloaded i t = true ↔
      ∃ r, lookupT i t = some r ∧ r.status = "downloaded" := by
  unfold is_video_downloaded
  cases h : lookupT i t with
  | none => simp
  | some r => simp

theorem fsLookup_mem {p : Pth} {sz : Nat} {fs : FS}
    (h : fsLookup p fs = some sz) : (p, sz) ∈ fs := by
  induction fs with
  | nil => cases h
  | cons e rest ih =>
    obtain ⟨q, s⟩ := e
    unfold fsLookup at h
    by_cases hq : q = p
    · subst hq
      simp only [if_pos] at h
      cases h
      exact List.mem_cons_self _ _
    · rw [if_neg hq] at h
      exact List.mem_cons_of_mem _ (ih h)

theorem fsHas_of_mem {p : Pth} {sz : Nat} {fs : FS} (h : (p, sz) ∈ fs) :
    fsHas p fs = true := by
  induction fs with
  | nil => cases h
  | cons e rest ih =>
    obtain ⟨q, s⟩ := e
    rcases List.mem_cons.mp h with heq | hmem
    · cases heq
      simp [fsHas, fsLookup]
    · unfold fsHas fsLookup
      by_cases hq : q = p
      · simp [hq]
      · rw [if_neg hq]
        exact ih hmem

theorem fsHas_fsSet_mono {j p : Pth} {sz : Nat} {fs : FS}
    (h : fsHas j fs = true) : fsHas j (fsSet p sz fs) = true := by
  by_cases hj : j = p
  · subst hj
    simp [fsHas, fsSet, fsLookup]
  · rw [fsHas_fsSet_other sz fs hj]
    exact h

theorem fsHas_fsSetMany_mono {j : Pth} {fs : FS} (l : List (Pth × Nat))
    (h : fsHas j fs = true) : fsHas j (fsSetMany fs l) = true := by
  induction l generalizing fs with
  | nil => exact h
  | cons e rest ih =>
    obtain ⟨p, sz⟩ := e
    unfold fsSetMany
    exact ih (fsHas_fsSet_mono h)

theorem fsHas_fsErase_of_ne {j p : Pth} {fs : FS} (hj : j ≠ p)
    (h : fsHas j fs = true) : fsHas j (fsErase p fs) = true := by
  unfold fsHas
  rw [fsLookup_fsErase_other fs hj]
  exact h

/-- What a download run can only ever add to the state. -/
def stateLe (st st' : DLState) : Prop :=
  st'.tracker.isSome = st.tracker.isSome ∧
  (∀ i, stDownloaded st i = true → stDownloaded st' i = true) ∧
  (∀ p : Pth, suffixOfName p.name = ".mp4" → fsHas p st.fs = true →
    fsHas p st'.fs = true)

theorem stateLe_refl (st : DLState) : stateLe st st :=
  ⟨rfl, fun _ h => h, fun _ _ h => h⟩

theorem stateLe_trans {a b c : DLState} (h1 : stateLe a b) (h2 : stateLe b c) :
    stateLe a c :=
  ⟨h2.1.trans h1.1, fun i hi => h2.2.1 i (h1.2.1 i hi),
   fun p hp hh => h2.2.2 p hp (h1.2.2 p hp hh)⟩

theorem stateLe_of_parts {st st' : DLState} (ht : st'.tracker = st.tracker)
    (hfs : st'.fs = st.fs) : stateLe st st' := by
  refine ⟨by rw [ht], fun i hi => ?_, fun p _ hp => by rw [hfs]; exact hp⟩
  unfold stDownloaded at hi ⊢
  rw [ht]
  exact hi

theorem is_video_downloaded_mark_mono {i vid vt fp now : String}
    {sz : Option Nat} {t : Tracker} (h : is_video_downloaded i t = true) :
    is_video_downloaded i (mark_video_downloaded vid vt fp now sz t) = true := by
  by_cases hi : i = vid
  · subst hi
    unfold is_video_downloaded mark_video_downloaded
    rw [lookupT_setT_self]
    simp
  · unfold mark_video_downloaded
    unfold is_video_downloaded at h ⊢
    rw [lookupT_setT_other _ t hi]
    exact h

theorem stateLe_trackerMark (st : DLState) (vid vt fp now : String)
    (sz : Option Nat) : stateLe st (trackerMark st vid vt fp now sz) := by
  refine ⟨?_, ?_, fun p _ hp => hp⟩
  · unfold trackerMark
    cases st.tracker <;> simp
  · intro i hi
    unfold stDownloaded at hi ⊢
    unfold trackerMark
    cases htr : st.tracker with
    | none => rw [htr] at hi; cases hi
    | some t =>
      rw [htr] at hi
      simp only [Option.map_some]
      exact is_video_downloaded_mark_mono hi

theorem stDownloaded_trackerMark_self (st : DLState) (vid vt fp now : String)
    (sz : Option Nat) (h : st.tracker.isSome = true) :
    stDownloaded (trackerMark st vid vt fp now sz) vid = true := by
  unfold stDownloaded trackerMark
  cases htr : st.tracker with
  | none => rw [htr] at h; cases h
  | some t =>
    simp only [Option.map_some']
    unfold is_video_downloaded mark_video_downloaded
    rw [lookupT_setT_self]
    simp

theorem startsWithL_iff {pre l : List Char} :
    startsWithL pre l = true ↔ pre <+: l := by
  induction pre generalizing l with
  | nil => simp [startsWithL]
  | cons a as ih =>
    cases l with
    | nil =>
      simp only [startsWithL, Bool.false_eq_true, false_iff]
      intro hc
      exact absurd hc.length_le (by simp)
    | cons b bs =>
      simp [startsWithL, ih, List.cons_prefix_cons]

theorem endsWithL_iff {l suf : List Char} :
    endsWithL l suf = true ↔ suf <:+ l := by
  unfold endsWithL
  rw [startsWithL_iff]
  exact List.reverse_prefix

theorem lastIdxOf_eq_none {c : Char} {l : List Char} (h : c ∉ l) :
    lastIdxOf c l = none := by
  induction l with
  | nil => rfl
  | cons a as ih =>
    simp only [List.mem_cons, not_or] at h
    unfold lastIdxOf
    rw [ih h.2]
    have ha : a ≠ c := fun hc => h.1 hc.symm
    simp [ha]

theorem lastIdxOf_append_cons (c : Char) (l r : List Char) (h : c ∉ r) :
    lastIdxOf c (l ++ c :: r) = some l.length := by
  induction l with
  | nil =>
    simp only [List.nil_append]
    unfold lastIdxOf
    rw [lastIdxOf_eq_none h]
    simp
  | cons a as ih =>
    rw [List.cons_append]
    unfold lastIdxOf
    rw [ih]
    simp

/-- A scan-relevant name — ending in `.mp4` with a stem long enough to
hold an id token — has `pathlib` suffix exactly `.mp4`. -/
theorem suffixOfName_of_scan_hit {name : String} {i : String}
    (hends : endsWithL name.data ['.', 'm', 'p', '4'] = true)
    (hid : extractIdFromStem (stemName name).data = some i) :
    suffixOfName name = ".mp4" := by
  obtain ⟨pre, hpre⟩ := endsWithL_iff.mp hends
  cases pre with
  | nil =>
    exfalso
    simp only [List.nil_append] at hpre
    unfold stemName at hid
    rw [show name.data = ['.', 'm', 'p', '4'] from hpre.symm] at hid
    dsimp only at hid
    have hnone : extractIdFromStem (suffixSplit ['.', 'm', 'p', '4']).1 = none := by
      decide
    rw [hnone] at hid
    cases hid
  | cons a as =>
    have hlast : lastIdxOf '.' name.data = some (a :: as).length := by
      rw [← hpre]
      exact lastIdxOf_append_cons '.' (a :: as) ['m', 'p', '4'] (by decide)
    unfold suffixOfName suffixSplit
    rw [hlast]
    dsimp only
    have hlen : name.data.length = (a :: as).length + 4 := by
      rw [← hpre]
      simp
    rw [if_pos ⟨by simp, by omega⟩]
    have hdrop : name.data.drop (a :: as).length = ['.', 'm', 'p', '4'] := by
      rw [← hpre]
      exact List.drop_left _ _
    dsimp only
    rw [hdrop]

theorem mem_scanMp4Ids_iff {i : String} {dp : String} {fs : FS} :
    i ∈ scanMp4Ids dp fs ↔
      ∃ p : Pth, p.dir = dp ∧ endsWithL p.name.data ['.', 'm', 'p', '4'] = true ∧
        extractIdFromStem (stemName p.name).data = some i ∧ fsHas p fs = true := by
  unfold scanMp4Ids
  rw [List.mem_filterMap]
  constructor
  · rintro ⟨⟨p, sz⟩, hmem, hf⟩
    dsimp only at hf
    split at hf
    · next hcond =>
      exact ⟨p, hcond.1, hcond.2, hf, fsHas_of_mem hmem⟩
    · cases hf
  · rintro ⟨p, hdir, hends, hid, hhas⟩
    unfold fsHas at hhas
    cases hlk : fsLookup p fs with
    | none => rw [hlk] at hhas; cases hhas
    | some sz =>
      refine ⟨(p, sz), fsLookup_mem hlk, ?_⟩
      dsimp only
      rw [if_pos ⟨hdir, hends⟩]
      exact hid

theorem scanMp4Ids_mono {i dp : String} {st st' : DLState}
    (hle : stateLe st st') (h : i ∈ scanMp4Ids dp st.fs) :
    i ∈ scanMp4Ids dp st'.fs := by
  obtain ⟨p, hdir, hends, hid, hhas⟩ := mem_scanMp4Ids_iff.mp h
  exact mem_scanMp4Ids_iff.mpr
    ⟨p, hdir, hends, hid,
     hle.2.2 p (suffixOfName_of_scan_hit hends hid) hhas⟩

/-- Membership in `get_downloaded_videos` is the union of the tracker
ids and the scan ids. -/
theorem mem_get_downloaded_videos {i : String} {t : Tracker} {dp : String}
    {fs : FS} :
    i ∈ get_downloaded_videos t (some dp) fs ↔
      i ∈ trackerDownloadedIds t ∨ i ∈ scanMp4Ids dp fs := by
  unfold get_downloaded_videos
  simp only [List.mem_append, List.mem_filter]
  constructor
  · rintro (h | ⟨h, _⟩)
    · exact Or.inl h
    · exact Or.inr h
  · intro h
    by_cases ht : i ∈ trackerDownloadedIds t
    · exact Or.inl ht
    · rcases h with h | h
      · exact absurd h ht
      · exact Or.inr ⟨h, by simpa using ht⟩

theorem mem_trackerDownloadedIds_of_downloaded {i : String} {t : Tracker}
    (h : is_video_downloaded i t = true) : i ∈ trackerDownloadedIds t := by
  obtain ⟨r, hlk, hst⟩ := is_video_downloaded_iff.mp h
  exact mem_trackerDownloadedIds.mpr ⟨r, lookupT_mem hlk, hst⟩

theorem downloaded_of_mem_trackerDownloadedIds {i : String} {t : Tracker}
    (hwf : trackerWF t) (h : i ∈ trackerDownloadedIds t) :
    is_video_downloaded i t = true := by
  obtain ⟨r, hmem, hst⟩ := mem_trackerDownloadedIds.mp h
  exact is_video_downloaded_iff.mpr ⟨r, mem_lookupT_of_nodup hwf hmem, hst⟩

theorem stDownloaded_mk (fs : FS) (tr : Option Tracker) (evs : List Event)
    (i : String) :
    stDownloaded { fs := fs, tracker := tr, events := evs } i
      = stDownloaded { fs := fs, tracker := tr, events := [] } i := rfl

theorem trackerMark_tracker_isSome (st : DLState) (vid vt fp now : String)
    (sz : Option Nat) :
    (trackerMark st vid vt fp now sz).tracker.isSome = st.tracker.isSome := by
  unfold trackerMark
  cases st.tracker <;> simp

/-- One full run of the retry loop only adds state: the tracker file's
presence is unchanged, downloaded tracker records persist, `.mp4` files
persist, and a successful outcome leaves the video marked downloaded. -/
theorem dlLoop_state_inv (engine : Nat → EngineResult)
    (download_path base : String) (audio_only : Bool) (audio_format : String)
    (vid vtitle now : String) (retry_attempts retry_delay : Nat) :
    ∀ fuel attempt lastErr (st : DLState),
    stateLe st (dlLoop engine download_path base audio_only audio_format vid
      vtitle now retry_attempts retry_delay fuel attempt lastErr st).2 ∧
    ((dlLoop engine download_path base audio_only audio_format vid
      vtitle now retry_attempts retry_delay fuel attempt lastErr st).1.success = true →
      st.tracker.isSome = true →
      stDownloaded (dlLoop engine download_path base audio_only audio_format vid
        vtitle now retry_attempts retry_delay fuel attempt lastErr st).2 vid = true) := by
  intro fuel
  induction fuel with
  | zero =>
    intro attempt lastErr st
    exact ⟨stateLe_refl st, fun h => by cases h⟩
  | succ f ih =>
    intro attempt lastErr st
    unfold dlLoop
    cases heng : engine attempt with
    | ok created =>
      dsimp only
      cases hpr : (probeFirst (fsSetMany st.fs created)
          (possibleFiles download_path base audio_only audio_format)).2 with
      | some fp =>
        dsimp only
        have hA : stateLe st
            { fs := fsSetMany st.fs created, tracker := st.tracker,
              events := (st.events ++ [Event.fetchInvoked attempt])
                ++ (probeFirst (fsSetMany st.fs created)
                    (possibleFiles download_path base audio_only audio_format)).1 } := by
          refine ⟨rfl, fun i hi => hi, fun p _ hp => fsHas_fsSetMany_mono created hp⟩
        split
        · next hcond =>
          refine ⟨stateLe_trans (stateLe_trans hA ?_) (stateLe_trackerMark _ _ _ _ _ _), ?_⟩
          · refine ⟨rfl, fun i hi => hi, fun p hp hhas => ?_⟩
            have hne : p ≠ fp := by
              intro hpe
              subst hpe
              exact hcond.2 hp
            exact fsHas_fsSet_mono (fsHas_fsErase_of_ne hne hhas)
          · intro _ hsome
            apply stDownloaded_trackerMark_self
            exact hsome
        · refine ⟨stateLe_trans hA (stateLe_trackerMark _ _ _ _ _ _), ?_⟩
          intro _ hsome
          apply stDownloaded_trackerMark_self
          exact hsome
      | none =>
        dsimp only
        have hA : stateLe st
            { fs := fsSetMany st.fs created, tracker := st.tracker,
              events := ((st.events ++ [Event.fetchInvoked attempt])
                ++ (probeFirst (fsSetMany st.fs created)
                    (possibleFiles download_path base audio_only audio_format)).1)
                ++ [Event.sleepEv retry_delay] } := by
          refine ⟨rfl, fun i hi => hi, fun p _ hp => fsHas_fsSetMany_mono created hp⟩
        have hA' : stateLe st
            { fs := fsSetMany st.fs created, tracker := st.tracker,
              events := (st.events ++ [Event.fetchInvoked attempt])
                ++ (probeFirst (fsSetMany st.fs created)
                    (possibleFiles download_path base audio_only audio_format)).1 } := by
          refine ⟨rfl, fun i hi => hi, fun p _ hp => fsHas_fsSetMany_mono created hp⟩
        split
        · obtain ⟨ih1, ih2⟩ := ih (attempt + 1)
            (some "Downloaded file not found after download") _
          exact ⟨stateLe_trans hA ih1, fun hs hsome => ih2 hs hsome⟩
        · obtain ⟨ih1, ih2⟩ := ih (attempt + 1)
            (some "Downloaded file not found after download") _
          exact ⟨stateLe_trans hA' ih1, fun hs hsome => ih2 hs hsome⟩
    | downloadError m =>
      dsimp only
      cases hcl : classifyMsg m with
      | some c =>
        dsimp only
        refine ⟨⟨rfl, fun i hi => hi, fun p _ hp => hp⟩, ?_⟩
        intro h
        cases h
      | none =>
        dsimp only
        have hA : stateLe st
            { fs := st.fs, tracker := st.tracker,
              events := (st.events ++ [Event.fetchInvoked attempt])
                ++ [Event.sleepEv retry_delay] } :=
          ⟨rfl, fun i hi => hi, fun p _ hp => hp⟩
        have hA' : stateLe st
            { fs := st.fs, tracker := st.tracker,
              events := st.events ++ [Event.fetchInvoked attempt] } :=
          ⟨rfl, fun i hi => hi, fun p _ hp => hp⟩
        split
        · obtain ⟨ih1, ih2⟩ := ih (attempt + 1) (some m) _
          exact ⟨stateLe_trans hA ih1, fun hs hsome => ih2 hs hsome⟩
        · obtain ⟨ih1, ih2⟩ := ih (attempt + 1) (some m) _
          exact ⟨stateLe_trans hA' ih1, fun hs hsome => ih2 hs hsome⟩
    | otherError m =>
      dsimp only
      have hA : stateLe st
          { fs := st.fs, tracker := st.tracker,
            events := (st.events ++ [Event.fetchInvoked attempt])
              ++ [Event.sleepEv retry_delay] } :=
        ⟨rfl, fun i hi => hi, fun p _ hp => hp⟩
      have hA' : stateLe st
          { fs := st.fs, tracker := st.tracker,
            events := st.events ++ [Event.fetchInvoked attempt] } :=
        ⟨rfl, fun i hi => hi, fun p _ hp => hp⟩
      split
      · obtain ⟨ih1, ih2⟩ := ih (attempt + 1) (some m) _
        exact ⟨stateLe_trans hA ih1, fun hs hsome => ih2 hs hsome⟩
      · obtain ⟨ih1, ih2⟩ := ih (attempt + 1) (some m) _
        exact ⟨stateLe_trans hA' ih1, fun hs hsome => ih2 hs hsome⟩

theorem afterExpectedProbe_state_inv (vid vtitle download_path : String)
    (retry_attempts retry_delay : Nat) (index : Option Nat)
    (audio_only : Bool) (audio_format : String)
    (engine : Nat → EngineResult) (now : String) (st : DLState) :
    stateLe st (afterExpectedProbe vid vtitle download_path retry_attempts
      retry_delay index audio_only audio_format engine now st).2 ∧
    ((afterExpectedProbe vid vtitle download_path retry_attempts retry_delay
      index audio_only audio_format engine now st).1.success = true →
      st.tracker.isSome = true →
      stDownloaded (afterExpectedProbe vid vtitle download_path retry_attempts
        retry_delay index audio_only audio_format engine now st).2 vid = true) := by
  unfold afterExpectedProbe
  dsimp only
  split
  · cases hpr : (probeFirst st.fs
        (audioProbePaths download_path (filenameBase index vtitle))).2 with
    | some cp =>
      dsimp only
      have hA : stateLe st
          { fs := st.fs, tracker := st.tracker,
            events := st.events ++ (probeFirst st.fs
              (audioProbePaths download_path (filenameBase index vtitle))).1 } :=
        ⟨rfl, fun i hi => hi, fun p _ hp => hp⟩
      refine ⟨stateLe_trans hA (stateLe_trackerMark _ _ _ _ _ _), ?_⟩
      intro _ hsome
      apply stDownloaded_trackerMark_self
      exact hsome
    | none =>
      dsimp only
      have hA : stateLe st
          { fs := st.fs, tracker := st.tracker,
            events := st.events ++ (probeFirst st.fs
              (audioProbePaths download_path (filenameBase index vtitle))).1 } :=
        ⟨rfl, fun i hi => hi, fun p _ hp => hp⟩
      obtain ⟨ih1, ih2⟩ := dlLoop_state_inv engine download_path
        (filenameBase index vtitle) audio_only audio_format vid vtitle now
        retry_attempts retry_delay retry_attempts 1 none _
      exact ⟨stateLe_trans hA ih1, fun hs hsome => ih2 hs hsome⟩
  · exact dlLoop_state_inv engine download_path (filenameBase index vtitle)
      audio_only audio_format vid vtitle now retry_attempts retry_delay
      retry_attempts 1 none st

theorem downloadVideoBody_state_inv (vid vtitle download_path : String)
    (retry_attempts retry_delay : Nat) (index : Option Nat)
    (audio_only : Bool) (audio_format : String)
    (engine : Nat → EngineResult) (now : String) (st : DLState) :
    stateLe st (downloadVideoBody vid vtitle download_path retry_attempts
      retry_delay index audio_only audio_format engine now st).2 ∧
    ((downloadVideoBody vid vtitle download_path retry_attempts retry_delay
      index audio_only audio_format engine now st).1.success = true →
      st.tracker.isSome = true →
      stDownloaded (downloadVideoBody vid vtitle download_path retry_attempts
        retry_delay index audio_only audio_format engine now st).2 vid = true) := by
  unfold downloadVideoBody
  dsimp only
  split
  · next q hef =>
    split
    · dsimp only
      have hA : stateLe st
          { fs := st.fs, tracker := st.tracker,
            events := st.events ++ [Event.fsProbe q] } :=
        ⟨rfl, fun i hi => hi, fun p _ hp => hp⟩
      refine ⟨stateLe_trans hA (stateLe_trackerMark _ _ _ _ _ _), ?_⟩
      intro _ hsome
      apply stDownloaded_trackerMark_self
      exact hsome
    · have hA : stateLe st
          { fs := st.fs, tracker := st.tracker,
            events := st.events ++ [Event.fsProbe q] } :=
        ⟨rfl, fun i hi => hi, fun p _ hp => hp⟩
      obtain ⟨ih1, ih2⟩ := afterExpectedProbe_state_inv vid vtitle download_path
        retry_attempts retry_delay index audio_only audio_format engine now
        { fs := st.fs, tracker := st.tracker,
          events := st.events ++ [Event.fsProbe q] }
      exact ⟨stateLe_trans hA ih1, fun hs hsome => ih2 hs hsome⟩
  · exact afterExpectedProbe_state_inv vid vtitle download_path retry_attempts
      retry_delay index audio_only audio_format engine now st

/-- One `download_video` call only adds state, and any non-failure
outcome (success or skip) leaves the video's identifier recorded as
downloaded whenever a tracker file is in use. -/
theorem download_video_state_inv (video : Video) (download_path : String)
    (retry_attempts retry_delay : Nat) (index : Option Nat)
    (audio_only : Bool) (audio_format : String)
    (engine : Nat → EngineResult) (now : String) (st : DLState) :
    stateLe st (download_video video download_path retry_attempts retry_delay
      index audio_only audio_format engine now st).2 ∧
    ((download_video video download_path retry_attempts retry_delay index
      audio_only audio_format engine now st).1.success = true →
      st.tracker.isSome = true →
      stDownloaded (download_video video download_path retry_attempts
        retry_delay index audio_only audio_format engine now st).2
        (video.id.getD "") = true) := by
  unfold download_video
  dsimp only
  split
  · next hhit =>
    refine ⟨stateLe_refl st, fun _ _ => ?_⟩
    unfold stDownloaded
    exact hhit
  · exact downloadVideoBody_state_inv _ _ download_path retry_attempts
      retry_delay index audio_only audio_format engine now st

/-- The pool run only adds state; the failure counter never decreases;
and if the run adds no failures, every dispatched video ends up recorded
as downloaded (when a tracker file is in use). -/
theorem runPool_inv (download_path : String) (retry_attempts retry_delay : Nat)
    (audio_only : Bool) (audio_format : String)
    (engine : Nat → Nat → EngineResult) (now : String) :
    ∀ (vs : List Video) (k : Nat) (st : DLState) (results : List Outcome)
      (successful failed skipped : Nat),
    failed ≤ (runPool download_path retry_attempts retry_delay audio_only
      audio_format engine now k vs st results successful failed skipped).2.2.1 ∧
    stateLe st (runPool download_path retry_attempts retry_delay audio_only
      audio_format engine now k vs st results successful failed skipped).2.2.2.2 ∧
    ((runPool download_path retry_attempts retry_delay audio_only audio_format
      engine now k vs st results successful failed skipped).2.2.1 = failed →
      st.tracker.isSome = true →
      ∀ v ∈ vs, stDownloaded (runPool download_path retry_attempts retry_delay
        audio_only audio_format engine now k vs st results successful failed
        skipped).2.2.2.2 (v.id.getD "") = true) := by
  intro vs
  induction vs with
  | nil =>
    intro k st results successful failed skipped
    exact ⟨Nat.le_refl _, stateLe_refl st,
      fun _ _ v hv => absurd hv (List.not_mem_nil v)⟩
  | cons v rest ih =>
    intro k st results successful failed skipped
    obtain ⟨hdv1, hdv2⟩ := download_video_state_inv v download_path retry_attempts
      retry_delay v.index audio_only audio_format (engine k) now st
    have hwfskip := download_video_skip_imp_success v download_path retry_attempts
      retry_delay v.index audio_only audio_format (engine k) now st
    unfold runPool
    dsimp only
    by_cases hsk : (download_video v download_path retry_attempts retry_delay
        v.index audio_only audio_format (engine k) now st).1.skipped
    · rw [if_pos hsk]
      obtain ⟨ihf, ihle, ihall⟩ := ih (k + 1) _
        (results ++ [(download_video v download_path retry_attempts retry_delay
          v.index audio_only audio_format (engine k) now st).1])
        successful failed (skipped + 1)
      refine ⟨ihf, stateLe_trans hdv1 ihle, ?_⟩
      intro hfe hsome v' hv'
      rcases List.mem_cons.mp hv' with rfl | hmem
      · exact ihle.2.1 _ (hdv2 (hwfskip hsk) hsome)
      · exact ihall hfe (by rw [hdv1.1]; exact hsome) v' hmem
    · rw [if_neg hsk]
      by_cases hsu : (download_video v download_path retry_attempts retry_delay
          v.index audio_only audio_format (engine k) now st).1.success
      · rw [if_pos hsu]
        obtain ⟨ihf, ihle, ihall⟩ := ih (k + 1) _
          (results ++ [(download_video v download_path retry_attempts retry_delay
            v.index audio_only audio_format (engine k) now st).1])
          (successful + 1) failed skipped
        refine ⟨ihf, stateLe_trans hdv1 ihle, ?_⟩
        intro hfe hsome v' hv'
        rcases List.mem_cons.mp hv' with rfl | hmem
        · exact ihle.2.1 _ (hdv2 hsu hsome)
        · exact ihall hfe (by rw [hdv1.1]; exact hsome) v' hmem
      · rw [if_neg hsu]
        obtain ⟨ihf, ihle, ihall⟩ := ih (k + 1) _
          (results ++ [(download_video v download_path retry_attempts retry_delay
            v.index audio_only audio_format (engine k) now st).1])
          successful (failed + 1) skipped
        refine ⟨by omega, stateLe_trans hdv1 ihle, ?_⟩
        intro hfe _ v' _
        exfalso
        omega

/-- A scheduler run only adds state, and a run that reports zero
failures leaves every dispatched video recorded as downloaded. -/
theorem download_playlist_state_inv (videos : List Video)
    (download_path : String) (retry_attempts retry_delay : Nat)
    (resume : Bool) (audio_only : Bool) (audio_format : String)
    (engine : Nat → Nat → EngineResult) (now : String) (st : DLState) :
    stateLe st (download_playlist videos download_path retry_attempts
      retry_delay resume audio_only audio_format engine now st).2 ∧
    ((download_playlist videos download_path retry_attempts retry_delay resume
      audio_only audio_format engine now st).1.failed = 0 →
      st.tracker.isSome = true →
      ∀ v ∈ videosToDownload videos resume download_path audio_only st,
        stDownloaded (download_playlist videos download_path retry_attempts
          retry_delay resume audio_only audio_format engine now st).2
          (v.id.getD "") = true) := by
  unfold download_playlist
  dsimp only
  split
  · next hempty =>
    refine ⟨stateLe_refl st, ?_⟩
    intro _ _ v hv
    rw [List.isEmpty_iff.mp hempty] at hv
    cases hv
  · obtain ⟨_, ihle, ihall⟩ := runPool_inv download_path retry_attempts
      retry_delay audio_only audio_format engine now
      (videosToDownload videos resume download_path audio_only st) 0 st [] 0 0 0
    exact ⟨ihle, fun hfe hsome v hv => ihall hfe hsome v hv⟩

/-- C1: idempotence of the scheduler.  Starting from a well-formed
tracker file, if a first resume-enabled run of `download_playlist`
completes with zero failures, then a second run on the same descriptor
sequence against the resulting tracker/directory state performs zero
successful downloads: every video is removed by the resume pre-filter
(`skipped` equals the full total, `successful = 0`), no task is
dispatched, and the state — in particular the event trace, so the fetch
engine is never invoked — is returned unchanged. -/
theorem C1_scheduler_idempotent (videos : List Video) (download_path : String)
    (retry_attempts retry_delay : Nat) (audio_only : Bool)
    (audio_format : String) (engine1 engine2 : Nat → Nat → EngineResult)
    (now1 now2 : String) (st : DLState) (t : Tracker)
    (ht : st.tracker = some t) (hwf : trackerWF t)
    (hfail : (download_playlist videos download_path retry_attempts retry_delay
      true audio_only audio_format engine1 now1 st).1.failed = 0) :
    download_playlist videos download_path retry_attempts retry_delay true
      audio_only audio_format engine2 now2
      ((download_playlist videos download_path retry_attempts retry_delay true
        audio_only audio_format engine1 now1 st).2)
      = ({ total := videos.length, successful := 0, failed := 0,
           skipped := videos.length, results := [] },
         (download_playlist videos download_path retry_attempts retry_delay true
           audio_only audio_format engine1 now1 st).2) := by
  obtain ⟨hle1, hall⟩ := download_playlist_state_inv videos download_path
    retry_attempts retry_delay true audio_only audio_format engine1 now1 st
  set st1 := (download_playlist videos download_path retry_attempts retry_delay
    true audio_only audio_format engine1 now1 st).2 with hst1
  have hsome : st.tracker.isSome = true := by rw [ht]; rfl
  have hsome1 : st1.tracker.isSome = true := by rw [hle1.1]; exact hsome
  obtain ⟨t1, ht1⟩ : ∃ t1, st1.tracker = some t1 :=
    Option.isSome_iff_exists.mp hsome1
  have hids : ∀ v ∈ videos,
      (v.id.getD "") ∈ downloadedIdsFor download_path audio_only st1 := by
    intro v hv
    by_cases hkeep : decide ((v.id.getD "")
        ∉ downloadedIdsFor download_path audio_only st) = true
    · have hvtd : v ∈ videosToDownload videos true download_path audio_only st := by
        unfold videosToDownload
        rw [if_pos rfl]
        exact List.mem_filter.mpr ⟨hv, hkeep⟩
      have hd := hall hfail hsome v hvtd
      unfold stDownloaded at hd
      rw [ht1] at hd
      unfold downloadedIdsFor
      rw [ht1]
      exact mem_get_downloaded_videos.mpr
        (Or.inl (mem_trackerDownloadedIds_of_downloaded hd))
    · have hin : (v.id.getD "") ∈ downloadedIdsFor download_path audio_only st := by
        simp only [decide_eq_true_eq] at hkeep
        by_contra hc
        exact hkeep hc
      unfold downloadedIdsFor at hin ⊢
      rw [ht] at hin
      rw [ht1]
      rcases mem_get_downloaded_videos.mp hin with htr | hsc
      · have hdl : is_video_downloaded (v.id.getD "") t = true :=
          downloaded_of_mem_trackerDownloadedIds hwf htr
        have h0 : stDownloaded st (v.id.getD "") = true := by
          unfold stDownloaded
          rw [ht]
          exact hdl
        have h1 : stDownloaded st1 (v.id.getD "") = true := hle1.2.1 _ h0
        unfold stDownloaded at h1
        rw [ht1] at h1
        exact mem_get_downloaded_videos.mpr
          (Or.inl (mem_trackerDownloadedIds_of_downloaded h1))
      · exact mem_get_downloaded_videos.mpr
          (Or.inr (scanMp4Ids_mono hle1 hsc))
  have hvtd2 : videosToDownload videos true download_path audio_only st1 = [] := by
    unfold videosToDownload
    rw [if_pos rfl]
    rw [List.filter_eq_nil_iff]
    intro v hv
    simp only [decide_eq_true_eq, Decidable.not_not]
    exact hids v hv
  unfold download_playlist
  dsimp only
  rw [hvtd2]
  simp

/-- Witness for C1: a one-video batch whose first run downloads the file
successfully; the second run skips everything and changes nothing. -/
theorem C1_witness :
    download_playlist
      [{ id := some "AAAAAAAAAAA", title := some "Talk", url := none, index := some 1 }]
      "dl" 3 5 true false "best"
      (fun _ _ => EngineResult.downloadError "boom") "2024-01-02T00:00:00"
      ((download_playlist
        [{ id := some "AAAAAAAAAAA", title := some "Talk", url := none, index := some 1 }]
        "dl" 3 5 true false "best"
        (fun _ _ => EngineResult.ok [(⟨"dl", "0001 - Talk.mp4"⟩, 42)])
        "2024-01-01T00:00:00" { fs := [], tracker := some [], events := [] }).2)
      = ({ total := 1, successful := 0, failed := 0, skipped := 1, results := [] },
         (download_playlist
           [{ id := some "AAAAAAAAAAA", title := some "Talk", url := none, index := some 1 }]
           "dl" 3 5 true false "best"
           (fun _ _ => EngineResult.ok [(⟨"dl", "0001 - Talk.mp4"⟩, 42)])
           "2024-01-01T00:00:00" { fs := [], tracker := some [], events := [] }).2) :=
  C1_scheduler_idempotent
    [{ id := some "AAAAAAAAAAA", title := some "Talk", url := none, index := some 1 }]
    "dl" 3 5 false "best"
    (fun _ _ => EngineResult.ok [(⟨"dl", "0001 - Talk.mp4"⟩, 42)])
    (fun _ _ => EngineResult.downloadError "boom")
    "2024-01-01T00:00:00" "2024-01-02T00:00:00"
    { fs := [], tracker := some [], events := [] } [] rfl List.nodup_nil (by decide)
